import Mathlib

/-!
Shallow embedding of the breadboard circuit validation engine
(`circuit-validator.js`, class `CircuitValidator`) together with proofs of
the specification claims about it.

Conventions used throughout the embedding:
* JavaScript `Map` objects are modelled as association lists
  (`List (String × α)`) with `Map.get` = first-match lookup and
  `Map.set` = replace-or-append; the keys stay unique, so first-match
  equals JS semantics.
* JavaScript `Set` objects are modelled as duplicate-free lists with
  `Set.add` appending only when absent; only membership and iteration
  order are ever observed.
* Untyped JSON input is modelled by the `Json` inductive; `undefined`
  and `null` are collapsed into `Json.null` (both are falsy and fail
  every `typeof x === '...'` test the validator performs).
* The asynchronous `fetch` calls are modelled by an explicit
  environment (`Env`); a failed or non-ok response is `none`.
* Validator instance state (`componentLibrary`, `loadedComponents`)
  is threaded explicitly as `VState`.
-/

namespace CircuitValidator

/-- A breadboard hole record, as produced by the breadboard-geometry
collaborator: `{ id, bus, type }` with `type ∈ {main, power, ground}`. -/
structure Hole where
  id : String
  bus : String
  type : String
  deriving DecidableEq

/-- Untyped JSON/JS values (the validator's input document). -/
inductive Json where
  | null : Json
  | bool (b : Bool) : Json
  | num (n : Int) : Json
  | str (s : String) : Json
  | arr (elems : List Json) : Json
  | obj (fields : List (String × Json)) : Json

/-- First-match association-list lookup (JS `Map.get` / object property
read; object keys coming from `JSON.parse` are unique). -/
def lookupStr {α : Type} (l : List (String × α)) (k : String) : Option α :=
  match l with
  | [] => none
  | (a, b) :: r => if a = k then some b else lookupStr r k

/-- `Map.set`: overwrite the existing entry or append a new one. -/
def mapSet {α : Type} (l : List (String × α)) (k : String) (v : α) : List (String × α) :=
  if (lookupStr l k).isSome then
    l.map (fun p => if p.1 = k then (p.1, v) else p)
  else
    l ++ [(k, v)]

/-- JS `Set.has` / `Array.includes` on strings. -/
def memStr (l : List String) (x : String) : Bool :=
  match l with
  | [] => false
  | a :: r => if a = x then true else memStr r x

/-- JS `Set.add`: append if absent. -/
def setAdd (l : List String) (x : String) : List String :=
  if memStr l x then l else l ++ [x]

/-- JS truthiness of a value. -/
def truthy : Json → Bool
  | .null => false
  | .bool b => b
  | .num n => !(n == 0)
  | .str s => !(s == "")
  | .arr _ => true
  | .obj _ => true

/-- `typeof v === 'object'` (true for objects, arrays and `null`). -/
def isTypeofObject : Json → Bool
  | .null => true
  | .arr _ => true
  | .obj _ => true
  | _ => false

/-- `typeof v === 'string'`. -/
def isString : Json → Bool
  | .str _ => true
  | _ => false

/-- `Array.isArray`. -/
def isArr : Json → Bool
  | .arr _ => true
  | _ => false

/-- Property read `v.k`: `Json.null` stands for `undefined`. -/
def jget (j : Json) (k : String) : Json :=
  match j with
  | .obj fs => (lookupStr fs k).getD .null
  | _ => .null

/-- Helper for `Object.entries`-style enumeration of an array
(JS object keys of an array are its stringified indices). -/
def enumStr (n : Nat) : List Json → List (String × Json)
  | [] => []
  | x :: r => (toString n, x) :: enumStr (n + 1) r

/-- `Object.entries v`. -/
def jsEntries : Json → List (String × Json)
  | .obj fs => fs
  | .arr xs => enumStr 0 xs
  | _ => []

/-- String coercion used by template literals (`${v}`); arrays are
approximated by a fixed token, which no validated claim observes. -/
def jsDisplay : Json → String
  | .str s => s
  | .null => "undefined"
  | .bool true => "true"
  | .bool false => "false"
  | .num n => toString n
  | .arr _ => "[array]"
  | .obj _ => "[object Object]"

/-- Extract a string value, defaulting to `""`. -/
def asString : Json → String
  | .str s => s
  | _ => ""

/-- Structured metadata values spread into a diagnostic
(the `...metadata` bag of `createError`). -/
inductive MVal where
  | s (v : String) : MVal
  | os (v : Option String) : MVal
  | list (vs : List String) : MVal
  | olist (vs : List (Option String)) : MVal
  | nat (n : Nat) : MVal
  | natList (ns : List Nat) : MVal
  deriving DecidableEq

/-- A diagnostic record `{type, severity, location, message, ...metadata}`. -/
structure Diag where
  type : String
  severity : String
  location : String
  message : String
  meta : List (String × MVal)
  deriving DecidableEq

/-- `createError(type, location, message, metadata)`. -/
def createError (type location message : String)
    (meta : List (String × MVal) := []) : Diag :=
  { type := type, severity := "error", location := location,
    message := message, meta := meta }

/-- `createWarning(type, location, message, metadata)`. -/
def createWarning (type location message : String)
    (meta : List (String × MVal) := []) : Diag :=
  { type := type, severity := "warning", location := location,
    message := message, meta := meta }

/-- `{ valid, errors, warnings }`. -/
structure ValidationResult where
  valid : Bool
  errors : List Diag
  warnings : List Diag
  deriving DecidableEq

/-- `buildBusMap`: `holeId -> bus`, built by successive `Map.set`. -/
def buildBusMap (holes : List Hole) : List (String × String) :=
  holes.foldl (fun m h => mapSet m h.id h.bus) []

/-- `this.busMap.get holeId`. -/
def busMapGet (holes : List Hole) (holeId : String) : Option String :=
  lookupStr (buildBusMap holes) holeId

/-- `buildHoleMap`: `holeId -> hole`. -/
def buildHoleMap (holes : List Hole) : List (String × Hole) :=
  holes.foldl (fun m h => mapSet m h.id h) []

/-- `this.holeMap.get holeId`. -/
def holeMapGet (holes : List Hole) (holeId : String) : Option Hole :=
  lookupStr (buildHoleMap holes) holeId

/-! ## Layer 1: structural validation (`validateSchema`) -/

/-- `validateMetadata(metadata)`. -/
def validateMetadata (metadata : Json) : List Diag :=
  ["name", "description"].filterMap (fun field =>
    if !(truthy (jget metadata field)) || !(isString (jget metadata field)) then
      some (createError "INVALID_METADATA" "metadata"
        ("Missing or invalid \"" ++ field ++ "\" field"))
    else none)

/-- `validateComponentSchema(component, index)`. -/
def validateComponentSchema (component : Json) (index : Nat) : List Diag :=
  let location := "components[" ++ toString index ++ "]"
  let e1 :=
    if !(truthy (jget component "id")) || !(isString (jget component "id")) then
      [createError "MISSING_COMPONENT_ID" location
        "Component missing required \"id\" field"]
    else []
  let e2 :=
    if !(truthy (jget component "type")) || !(isString (jget component "type")) then
      [createError "MISSING_COMPONENT_TYPE" location
        ("Component \"" ++ jsDisplay (jget component "id") ++
          "\" missing required \"type\" field")]
    else []
  let e3 :=
    if !(truthy (jget component "placement")) ||
        !(isTypeofObject (jget component "placement")) then
      [createError "MISSING_PLACEMENT" location
        ("Component \"" ++ jsDisplay (jget component "id") ++
          "\" missing required \"placement\" field")]
    else
      (if (jsEntries (jget component "placement")).length == 0 then
        [createError "EMPTY_PLACEMENT" location
          ("Component \"" ++ jsDisplay (jget component "id") ++
            "\" has empty placement object")]
      else []) ++
      (jsEntries (jget component "placement")).filterMap (fun pr =>
        if isString pr.2 then none
        else some (createError "INVALID_HOLE_ID" location
          ("Component \"" ++ jsDisplay (jget component "id") ++ "\" pin \"" ++
            pr.1 ++ "\" has invalid hole ID (must be string)")))
  let e4 :=
    if truthy (jget component "properties") &&
        !(isTypeofObject (jget component "properties")) then
      [createError "INVALID_PROPERTIES" location
        ("Component \"" ++ jsDisplay (jget component "id") ++
          "\" has invalid \"properties\" field (must be object)")]
    else []
  e1 ++ e2 ++ e3 ++ e4

/-- `validateWireSchema(wire, index)`. -/
def validateWireSchema (wire : Json) (index : Nat) : List Diag :=
  let location := "wires[" ++ toString index ++ "]"
  let e1 :=
    if !(truthy (jget wire "id")) || !(isString (jget wire "id")) then
      [createError "MISSING_WIRE_ID" location "Wire missing required \"id\" field"]
    else []
  let e2 :=
    if !(truthy (jget wire "from")) || !(isString (jget wire "from")) then
      [createError "MISSING_WIRE_FROM" location
        ("Wire \"" ++ jsDisplay (jget wire "id") ++ "\" missing required \"from\" field")]
    else []
  let e3 :=
    if !(truthy (jget wire "to")) || !(isString (jget wire "to")) then
      [createError "MISSING_WIRE_TO" location
        ("Wire \"" ++ jsDisplay (jget wire "id") ++ "\" missing required \"to\" field")]
    else []
  e1 ++ e2 ++ e3

/-- `circuit.components.forEach((comp, index) => ... validateComponentSchema ...)`. -/
def schemaComponentsLoop (n : Nat) : List Json → List Diag
  | [] => []
  | x :: r => validateComponentSchema x n ++ schemaComponentsLoop (n + 1) r

/-- `circuit.wires.forEach((wire, index) => ... validateWireSchema ...)`. -/
def schemaWiresLoop (n : Nat) : List Json → List Diag
  | [] => []
  | x :: r => validateWireSchema x n ++ schemaWiresLoop (n + 1) r

/-- `validateSchema(circuitJSON)`. -/
def validateSchema (circuitJSON : Json) : List Diag :=
  if !(truthy circuitJSON) || !(isTypeofObject circuitJSON) then
    [createError "INVALID_JSON" "Root" "Circuit data must be a valid JSON object"]
  else if !(truthy (jget circuitJSON "circuit")) then
    [createError "MISSING_CIRCUIT" "Root" "Missing required \"circuit\" field"]
  else
    let circuit := jget circuitJSON "circuit"
    let e1 :=
      if !(truthy (jget circuit "metadata")) then
        [createError "MISSING_METADATA" "circuit" "Missing required \"metadata\" field"]
      else []
    let e2 :=
      if !(truthy (jget circuit "components")) || !(isArr (jget circuit "components")) then
        [createError "MISSING_COMPONENTS" "circuit" "Missing or invalid \"components\" array"]
      else []
    let e3 :=
      if !(truthy (jget circuit "wires")) || !(isArr (jget circuit "wires")) then
        [createError "MISSING_WIRES" "circuit" "Missing or invalid \"wires\" array"]
      else []
    let e4 :=
      if truthy (jget circuit "metadata") then validateMetadata (jget circuit "metadata")
      else []
    let e5 :=
      match jget circuit "components" with
      | .arr xs => schemaComponentsLoop 0 xs
      | _ => []
    let e6 :=
      match jget circuit "wires" with
      | .arr xs => schemaWiresLoop 0 xs
      | _ => []
    e1 ++ e2 ++ e3 ++ e4 ++ e5 ++ e6

/-! ## Typed circuit view

Layers 2-5 only ever run after `validateSchema` returned no diagnostics,
which pins the document to the shape below (each component an object with
string `id`/`type` and a string-valued `placement` object; each wire an
object with string `id`/`from`/`to`). The typed view makes that shape
explicit; `circuitOfJson` realizes it and is exact on every document that
passed layer 1. -/

/-- A component instance: `{id, type, placement}` (the optional
`properties` field of a component is never read after layer 1). -/
structure Component where
  id : String
  type : String
  placement : List (String × String)
  deriving DecidableEq

/-- A wire instance: `{id, from, to, properties}`. The source fields
`from`/`to` are called `wfrom`/`wto` (`from` is reserved in Lean). -/
structure Wire where
  id : String
  wfrom : String
  wto : String
  properties : Json

/-- The `circuit` object of a schema-valid document. -/
structure Circuit where
  components : List Component
  wires : List Wire

def componentOfJson (cj : Json) : Component :=
  { id := asString (jget cj "id"),
    type := asString (jget cj "type"),
    placement := (jsEntries (jget cj "placement")).map (fun pr => (pr.1, asString pr.2)) }

def wireOfJson (wj : Json) : Wire :=
  { id := asString (jget wj "id"),
    wfrom := asString (jget wj "from"),
    wto := asString (jget wj "to"),
    properties := jget wj "properties" }

def circuitOfJson (j : Json) : Circuit :=
  let c := jget j "circuit"
  { components :=
      match jget c "components" with
      | .arr xs => xs.map componentOfJson
      | _ => [],
    wires :=
      match jget c "wires" with
      | .arr xs => xs.map wireOfJson
      | _ => [] }

/-! ## Component registry (`init`, `loadComponent`) -/

/-- A pin descriptor from a component definition file. -/
structure PinDef where
  electricalType : String := ""
  pwmCapable : Option Bool := none
  pwmChannel : Option Nat := none

/-- The `validation` block of a component definition; `rules` is a
free-form object whose truthiness gates `validateAgainstComponentRules`. -/
structure Validation where
  electricalType : String := ""
  rules : Json := Json.null

/-- A `ComponentDefinition` (the `component` object of a per-type file). -/
structure ComponentDef where
  pins : Option (List (String × PinDef)) := none
  validation : Option Validation := none

/-- The parsed `components/<path>` document `{ component: ... }`. -/
structure ComponentDoc where
  component : ComponentDef

/-- The component library: `{ index: { type -> path } }`. -/
structure Library where
  index : List (String × String)
  deriving DecidableEq

/-- The parsed `components/library.json` document `{ library: ... }`. -/
structure LibraryDoc where
  library : Library

/-- The fetch environment: a `none` result models a network failure or a
non-ok response (both paths `throw` inside the corresponding `try`). -/
structure Env where
  libraryFetch : Option LibraryDoc
  componentFetch : String → Option ComponentDoc

/-- Mutable validator state: `this.componentLibrary` and the
`this.loadedComponents` cache. -/
structure VState where
  componentLibrary : Option Library := none
  loadedComponents : List (String × ComponentDef) := []

/-- The `try` block of `init()`: fetch `components/library.json`, throw on
failure, otherwise store `data.library` and return `true`. -/
def initTry (env : Env) (st : VState) : Except String (Bool × VState) :=
  match env.libraryFetch with
  | none => .error "Failed to load component library"
  | some data => .ok (true, { st with componentLibrary := some data.library })

/-- `init()`: the `catch` turns any failure of the `try` block into a
normal `false` return — no exception escapes `init`. -/
def init (env : Env) (st : VState) : Bool × VState :=
  match initTry env st with
  | .ok r => r
  | .error _ => (false, st)

/-- `loadComponent(componentType)`: cache lookup, then library index
lookup, then fetch of the per-type file; every failure is a `throw`
(`Except.error`) surfaced to the caller. -/
def loadComponent (env : Env) (st : VState) (componentType : String) :
    Except String (ComponentDef × VState) :=
  match lookupStr st.loadedComponents componentType with
  | some c => .ok (c, st)
  | none =>
    match st.componentLibrary with
    | none => .error "Component library not initialized. Call init() first."
    | some lib =>
      match lookupStr lib.index componentType with
      | none =>
        .error ("Component type \"" ++ componentType ++ "\" not found in library")
      | some componentPath =>
        if componentPath = "" then
          .error ("Component type \"" ++ componentType ++ "\" not found in library")
        else
          match env.componentFetch componentPath with
          | none =>
            .error ("Error loading component \"" ++ componentType ++
              "\": Failed to load component: " ++ componentPath)
          | some data =>
            .ok (data.component,
              { st with loadedComponents :=
                  mapSet st.loadedComponents componentType data.component })

/-! ## Layer 2: reference validation (`validateReferences`) -/

/-- `validateWireEndpoint(wire, endpoint, componentIds)` where
`reference = wire[endpoint]`. -/
def validateWireEndpoint (holes : List Hole) (w : Wire) (endpointName : String)
    (reference : String) (componentIds : List String) : List Diag :=
  if reference = "" then []
  else if reference.contains '.' then
    let compId := (reference.splitOn ".").headD ""
    if memStr componentIds compId then []
    else
      [createError "INVALID_WIRE_COMPONENT" w.id
        ("Wire " ++ endpointName ++ " references non-existent component \"" ++
          compId ++ "\"")]
  else
    if (holeMapGet holes reference).isSome then []
    else
      [createError "INVALID_WIRE_HOLE" w.id
        ("Wire " ++ endpointName ++ " references non-existent hole \"" ++
          reference ++ "\"")]

/-- `validateReferences(circuitJSON)` (asynchronous in the source only
because of `loadComponent`; its state is threaded here). -/
def validateReferences (holes : List Hole) (env : Env) (st : VState)
    (circuit : Circuit) : List Diag × VState :=
  -- component-id uniqueness (the JS `Set.add` of an already-present id
  -- is a no-op, so only the membership test matters)
  let idStep := circuit.components.foldl
    (fun (acc : List Diag × List String) comp =>
      if comp.id = "" then acc
      else if memStr acc.2 comp.id then
        (acc.1 ++ [createError "DUPLICATE_COMPONENT_ID" comp.id
          ("Component ID \"" ++ comp.id ++ "\" is used more than once")], acc.2)
      else (acc.1, acc.2 ++ [comp.id]))
    ([], [])
  let componentIds := idStep.2
  -- component-type resolution and pin-name cross-check; a typed
  -- component's `placement` is always an object, hence always truthy
  let typeStep := circuit.components.foldl
    (fun (acc : List Diag × VState) comp =>
      if comp.type = "" then acc
      else
        match loadComponent env acc.2 comp.type with
        | .ok (componentDef, st') =>
          let pinErrs :=
            match componentDef.pins with
            | none => []
            | some pins =>
              let definedPins := pins.map (fun p => p.1)
              (comp.placement.map (fun p => p.1)).filterMap (fun pin =>
                if memStr definedPins pin then none
                else some (createError "INVALID_PIN_NAME" comp.id
                  ("Pin \"" ++ pin ++ "\" not defined in component type \"" ++
                    comp.type ++ "\". Valid pins: " ++
                    String.intercalate ", " definedPins)))
          (acc.1 ++ pinErrs, st')
        | .error e =>
          (acc.1 ++ [createError "UNKNOWN_COMPONENT_TYPE" comp.id
            ("Component type \"" ++ comp.type ++ "\" not found in library: " ++ e)],
            acc.2))
    (([], st) : List Diag × VState)
  -- hole references in placements
  let holeRefErrs := circuit.components.flatMap (fun comp =>
    comp.placement.filterMap (fun pr =>
      if (holeMapGet holes pr.2).isSome then none
      else some (createError "INVALID_HOLE_REFERENCE" comp.id
        ("Pin \"" ++ pr.1 ++ "\" references non-existent hole \"" ++ pr.2 ++ "\""))))
  -- wire endpoint references
  let wireEndpointErrs := circuit.wires.flatMap (fun w =>
    validateWireEndpoint holes w "from" w.wfrom componentIds ++
    validateWireEndpoint holes w "to" w.wto componentIds)
  -- wire-id uniqueness
  let wireIdStep := circuit.wires.foldl
    (fun (acc : List Diag × List String) w =>
      if w.id = "" then acc
      else if memStr acc.2 w.id then
        (acc.1 ++ [createError "DUPLICATE_WIRE_ID" w.id
          ("Wire ID \"" ++ w.id ++ "\" is used more than once")], acc.2)
      else (acc.1, acc.2 ++ [w.id]))
    ([], [])
  (idStep.1 ++ typeStep.1 ++ holeRefErrs ++ wireEndpointErrs ++ wireIdStep.1,
    typeStep.2)

/-! ## Layer 3: electrical rule check (`checkBusConflicts`,
`checkPowerGroundShorts`) -/

/-- One entry of the `pinBuses` array: `{ pin, hole, bus }`. -/
structure PinBus where
  pin : String
  hole : String
  bus : String
  deriving DecidableEq

/-- The `pinBuses` array of `checkBusConflicts`: each placed pin together
with its bus, skipping pins whose hole has no (truthy) bus. -/
def pinBuses (holes : List Hole) (c : Component) : List PinBus :=
  c.placement.filterMap (fun pr =>
    match busMapGet holes pr.2 with
    | some bus => if bus = "" then none else some ⟨pr.1, pr.2, bus⟩
    | none => none)

/-- One step of building `busCounts` (`busCounts[pb.bus].push(pb.pin)`,
creating the entry on first use). -/
def insertGroup (acc : List (String × List String)) (pb : PinBus) :
    List (String × List String) :=
  if (lookupStr acc pb.bus).isSome then
    acc.map (fun e => if e.1 = pb.bus then (e.1, e.2 ++ [pb.pin]) else e)
  else
    acc ++ [(pb.bus, [pb.pin])]

/-- `checkBusConflicts(component)`. -/
def checkBusConflicts (holes : List Hole) (c : Component) : List Diag :=
  let pb := pinBuses holes c
  let busCounts := pb.foldl insertGroup []
  busCounts.filterMap (fun e =>
    if e.2.length > 1 then
      some (createError "SHORT_CIRCUIT" c.id
        ("Multiple pins (" ++ String.intercalate ", " e.2 ++
          ") connected to same bus \"" ++ e.1 ++ "\" - this creates a short circuit")
        [("bus", MVal.s e.1), ("pins", MVal.list e.2),
          ("holes", MVal.list ((pb.filter (fun x => x.bus == e.1)).map (fun x => x.hole)))])
    else none)

/-- The node set of one net built by `buildNets`: `new Set([wire.from,
wire.to])` (deduplicated when the endpoints coincide). -/
def wireNodes (w : Wire) : List String :=
  if w.wfrom = w.wto then [w.wfrom] else [w.wfrom, w.wto]

/-- `buildNets(circuit)`: one net per wire, keyed by a running counter. -/
def buildNetsAux (n : Nat) : List Wire → List (Nat × List String)
  | [] => []
  | w :: rest => (n, wireNodes w) :: buildNetsAux (n + 1) rest

def buildNets (wires : List Wire) : List (Nat × List String) :=
  buildNetsAux 0 wires

/-- The body of the `nets.forEach` of `checkPowerGroundShorts`: at most
one diagnostic per net. -/
def netCheck (holes : List Hole) (net : Nat × List String) : Option Diag :=
  let holeNodes := net.2.filter (fun n => !(n.contains '.'))
  let hs := holeNodes.filterMap (holeMapGet holes)
  let hasPower := hs.any (fun h => h.type == "power")
  let hasGround := hs.any (fun h => h.type == "ground")
  if hasPower && hasGround then
    some (createError "POWER_GROUND_SHORT" ("net-" ++ toString net.1)
      "Net connects both power and ground rails directly - this is a short circuit"
      [("powerHoles", MVal.list ((hs.filter (fun h => h.type == "power")).map (fun h => h.id))),
        ("groundHoles", MVal.list ((hs.filter (fun h => h.type == "ground")).map (fun h => h.id)))])
  else none

/-- `checkPowerGroundShorts(circuit)`. -/
def checkPowerGroundShorts (holes : List Hole) (circuit : Circuit) : List Diag :=
  (buildNets circuit.wires).filterMap (netCheck holes)

/-- `validateElectricalRules(circuitJSON)` (no suspension point is ever
reached, so the source's `async` is vacuous). -/
def validateElectricalRules (holes : List Hole) (circuit : Circuit) : List Diag :=
  circuit.components.flatMap (checkBusConflicts holes) ++
    checkPowerGroundShorts holes circuit

/-- `checkElectricalWarnings(circuitJSON)`: the unconnected-component
detection is commented out in the source, so no warning is ever produced. -/
def checkElectricalWarnings (_circuit : Circuit) : List Diag := []

/-! ## Layer 4: bus-connectivity graph -/

/-- The connectivity graph: `Map<bus, Set<bus>>`. -/
abbrev Graph := List (String × List String)

/-- `graph.get(b) || new Set()`. -/
def neighborsOf (g : Graph) (b : String) : List String :=
  (lookupStr g b).getD []

/-- `if (!graph.has(b)) graph.set(b, new Set())`. -/
def graphEnsure (g : Graph) (b : String) : Graph :=
  if (lookupStr g b).isSome then g else g ++ [(b, [])]

/-- `graph.get(b).add(x)` (a no-op when `b` has no entry). -/
def graphAdd (g : Graph) (b x : String) : Graph :=
  g.map (fun p => if p.1 = b then (p.1, setAdd p.2 x) else p)

/-- `addEdge(bus1, bus2)` of `buildBusConnectivityGraph`. -/
def addEdge (g : Graph) (bus1 bus2 : String) : Graph :=
  if bus1 = "" ∨ bus2 = "" ∨ bus1 = bus2 then g
  else
    let g1 := graphEnsure (graphEnsure g bus1) bus2
    graphAdd (graphAdd g1 bus1 bus2) bus2 bus1

/-- The double loop `for i ... for j = i+1 ...` adding an edge between
every pair of a component's placed buses. -/
def pairEdges (g : Graph) : List String → Graph
  | [] => g
  | b :: rest => pairEdges (rest.foldl (fun acc x => addEdge acc b x) g) rest

/-- `getEndpointBus(endpoint, circuit)`. -/
def getEndpointBus (holes : List Hole) (circuit : Circuit) (endpoint : String) :
    Option String :=
  if !(endpoint.contains '.') then busMapGet holes endpoint
  else
    let parts := endpoint.splitOn "."
    let compId := parts.headD ""
    let pinName := parts.getD 1 ""
    match circuit.components.find? (fun c => c.id == compId) with
    | none => none
    | some component =>
      match lookupStr component.placement pinName with
      | none => none
      | some holeId => if holeId = "" then none else busMapGet holes holeId

/-- `buildBusConnectivityGraph(circuit)`: edges from every pair of placed
component buses, then edges from wires whose two endpoints both resolve. -/
def buildBusConnectivityGraph (holes : List Hole) (circuit : Circuit) : Graph :=
  let g1 := circuit.components.foldl
    (fun g comp =>
      let buses := ((comp.placement.map (fun p => p.2)).filterMap
        (busMapGet holes)).filter (fun b => !(b == ""))
      pairEdges g buses)
    []
  circuit.wires.foldl
    (fun g w =>
      match getEndpointBus holes circuit w.wfrom, getEndpointBus holes circuit w.wto with
      | some a, some b => if a = "" ∨ b = "" then g else addEdge g a b
      | _, _ => g)
    g1

/-! ### Termination measure for the breadth-first searches

Each BFS either pops an already-visited node (the queue shrinks) or marks
a new node visited, enqueueing its neighbors; the weight of unvisited
graph entries (degree + 1 each) then drops by more than the enqueued
neighbors, so `unvisitedWeight g visited + queue.length` decreases. -/

def unvisitedWeight (g : Graph) (visited : List String) : Nat :=
  match g with
  | [] => 0
  | p :: r => cond (memStr visited p.1) 0 (p.2.length + 1) + unvisitedWeight r visited

theorem uw_mono (g : Graph) (visited : List String) (c : String) :
    unvisitedWeight g (c :: visited) ≤ unvisitedWeight g visited := by
  induction g with
  | nil => exact Nat.le_refl _
  | cons p r ih =>
    simp only [unvisitedWeight]
    have himp : memStr visited p.1 = true → memStr (c :: visited) p.1 = true := by
      intro h
      show (if c = p.1 then true else memStr visited p.1) = true
      rw [h]
      split <;> rfl
    cases hmc : memStr (c :: visited) p.1 with
    | false =>
      cases hmv : memStr visited p.1 with
      | false => simp only [hmc, hmv, cond_false]; omega
      | true => exact absurd (himp hmv) (by simp [hmc])
    | true =>
      cases hmv : memStr visited p.1 with
      | false => simp only [hmc, hmv, cond_true, cond_false]; omega
      | true => simp only [hmc, hmv, cond_true]; omega

theorem uw_remove (g : Graph) (visited : List String) (current : String)
    (adj : List String) (hv : memStr visited current = false)
    (hl : lookupStr g current = some adj) :
    unvisitedWeight g (current :: visited) + (adj.length + 1) ≤
      unvisitedWeight g visited := by
  induction g with
  | nil => simp [lookupStr] at hl
  | cons p r ih =>
    simp only [unvisitedWeight]
    simp only [lookupStr] at hl
    by_cases hc : p.1 = current
    · rw [if_pos hc] at hl
      injection hl with hadj
      subst hadj
      have h1 : memStr (current :: visited) p.1 = true := by
        show (if current = p.1 then true else memStr visited p.1) = true
        rw [if_pos hc.symm]
      have h2 : memStr visited p.1 = false := by rw [hc]; exact hv
      rw [h1, h2]
      have hmono := uw_mono r visited current
      simp only [cond_true, cond_false]
      omega
    · rw [if_neg hc] at hl
      have h1 : memStr (current :: visited) p.1 = memStr visited p.1 := by
        show (if current = p.1 then true else memStr visited p.1) = memStr visited p.1
        rw [if_neg (fun h => hc h.symm)]
      rw [h1]
      have := ih hl
      omega

/-- Decrease step shared by all four BFS loops: popping an unvisited node
and enqueueing its neighbors shrinks the measure. -/
theorem uw_step (g : Graph) (visited : List String) (current : String)
    (rest : List String) (hv : memStr visited current = false) :
    unvisitedWeight g (current :: visited) +
      (rest ++ neighborsOf g current).length <
      unvisitedWeight g visited + (current :: rest).length := by
  simp only [List.length_append, List.length_cons]
  cases hl : lookupStr g current with
  | none =>
    have : neighborsOf g current = [] := by simp [neighborsOf, hl]
    rw [this]
    have := uw_mono g visited current
    simp
    omega
  | some adj =>
    have hn : neighborsOf g current = adj := by simp [neighborsOf, hl]
    rw [hn]
    have := uw_remove g visited current adj hv hl
    omega

/-- The `while` loop of `pathExists`: pop, skip if visited, test the
target, enqueue neighbors. -/
def pathExistsLoop (g : Graph) (target : String) (visited queue : List String) : Bool :=
  match queue with
  | [] => false
  | current :: rest =>
    if memStr visited current then
      pathExistsLoop g target visited rest
    else if current = target then true
    else pathExistsLoop g target (current :: visited) (rest ++ neighborsOf g current)
termination_by unvisitedWeight g visited + queue.length
decreasing_by
  · simp only [List.length_cons]
    omega
  · apply uw_step
    simp only [Bool.not_eq_true] at *
    assumption

/-- `pathExists(graph, startBus, targetBus)`: BFS reachability with an
immediate `true` on equal endpoints. -/
def pathExists (g : Graph) (startBus targetBus : String) : Bool :=
  if startBus = targetBus then true
  else pathExistsLoop g targetBus [] [startBus]

/-- `endpoint.split('.')[1].includes('GND')`-style containment test. -/
def strIncludes (s pat : String) : Bool :=
  decide (1 < (s.splitOn pat).length)

/-- `isGroundPin(endpoint, circuit)`. -/
def isGroundPin (circuit : Circuit) (endpoint : String) : Bool :=
  if !(endpoint.contains '.') then false
  else
    let parts := endpoint.splitOn "."
    let compId := parts.headD ""
    let pinName := parts.getD 1 ""
    match circuit.components.find? (fun c => c.id == compId) with
    | none => false
    | some _ => strIncludes pinName "GND"

/-- `isGPIOPin(endpoint, circuit)`. -/
def isGPIOPin (circuit : Circuit) (endpoint : String) : Bool :=
  if !(endpoint.contains '.') then false
  else
    let parts := endpoint.splitOn "."
    let compId := parts.headD ""
    let pinName := parts.getD 1 ""
    match circuit.components.find? (fun c => c.id == compId) with
    | none => false
    | some _ => pinName.startsWith "GP"

/-- The wires touching a bus (`wiresOnBus` of the two path searches). -/
def wiresOnBus (holes : List Hole) (circuit : Circuit) (currentBus : String) :
    List Wire :=
  circuit.wires.filter (fun w =>
    (getEndpointBus holes circuit w.wfrom == some currentBus) ||
    (getEndpointBus holes circuit w.wto == some currentBus))

/-- The `while` loop of `pathToGround`. -/
def pathToGroundLoop (holes : List Hole) (circuit : Circuit) (g : Graph)
    (visited queue : List String) : Bool :=
  match queue with
  | [] => false
  | currentBus :: rest =>
    if memStr visited currentBus then
      pathToGroundLoop holes circuit g visited rest
    else if (holes.filter (fun h => h.bus == currentBus)).any
        (fun h => h.type == "ground") then true
    else if (wiresOnBus holes circuit currentBus).any
        (fun w => isGroundPin circuit w.wfrom || isGroundPin circuit w.wto) then true
    else
      pathToGroundLoop holes circuit g (currentBus :: visited)
        (rest ++ neighborsOf g currentBus)
termination_by unvisitedWeight g visited + queue.length
decreasing_by
  · simp only [List.length_cons]
    omega
  · apply uw_step
    simp only [Bool.not_eq_true] at *
    assumption

/-- `pathToGround(startBus, graph, circuit)`; the argument is the
possibly-undefined result of a bus lookup (`if (!startBus) return false`). -/
def pathToGround (holes : List Hole) (circuit : Circuit) (g : Graph)
    (startBus : Option String) : Bool :=
  match startBus with
  | none => false
  | some b => if b = "" then false else pathToGroundLoop holes circuit g [] [b]

/-- The result object of `pathToPowerSource`. -/
structure PathSourceResult where
  found : Bool
  isPowerRail : Option Bool := none
  pin : Option String := none

/-- The `while` loop of `pathToPowerSource`. -/
def pathToPowerSourceLoop (holes : List Hole) (circuit : Circuit) (g : Graph)
    (visited queue : List String) : PathSourceResult :=
  match queue with
  | [] => { found := false }
  | currentBus :: rest =>
    if memStr visited currentBus then
      pathToPowerSourceLoop holes circuit g visited rest
    else if (holes.filter (fun h => h.bus == currentBus)).any
        (fun h => h.type == "power") then
      { found := true, isPowerRail := some true }
    else
      match (wiresOnBus holes circuit currentBus).find?
          (fun w => isGPIOPin circuit w.wfrom || isGPIOPin circuit w.wto) with
      | some w =>
        { found := true, isPowerRail := some false,
          pin := some (if isGPIOPin circuit w.wfrom then w.wfrom else w.wto) }
      | none =>
        pathToPowerSourceLoop holes circuit g (currentBus :: visited)
          (rest ++ neighborsOf g currentBus)
termination_by unvisitedWeight g visited + queue.length
decreasing_by
  · simp only [List.length_cons]
    omega
  · apply uw_step
    simp only [Bool.not_eq_true] at *
    assumption

/-- `pathToPowerSource(startBus, graph, circuit)`. -/
def pathToPowerSource (holes : List Hole) (circuit : Circuit) (g : Graph)
    (startBus : Option String) : PathSourceResult :=
  match startBus with
  | none => { found := false }
  | some b =>
    if b = "" then { found := false }
    else pathToPowerSourceLoop holes circuit g [] [b]

/-- `checkSeriesConnections(circuit, graph)`. -/
def checkSeriesConnections (holes : List Hole) (circuit : Circuit) (graph : Graph) :
    List Diag :=
  match circuit.components.find? (fun c => c.type == "led" || c.type == "led-red-5mm"),
      circuit.components.find? (fun c => c.type == "resistor" || c.type == "resistor-220") with
  | some led, some resistor =>
    let ledAnodeBus := (lookupStr led.placement "anode").bind (busMapGet holes)
    let ledCathodeBus := (lookupStr led.placement "cathode").bind (busMapGet holes)
    let resistorBuses := ((resistor.placement.map (fun p => p.2)).filterMap
      (busMapGet holes)).filter (fun b => !(b == ""))
    let directConnection :=
      (match ledAnodeBus with
        | some b => memStr resistorBuses b
        | none => false) ||
      (match ledCathodeBus with
        | some b => memStr resistorBuses b
        | none => false)
    if directConnection then []
    else
      let connected := resistorBuses.any (fun rBus =>
        (match ledAnodeBus with
          | some t => pathExists graph rBus t
          | none => false) ||
        (match ledCathodeBus with
          | some t => pathExists graph rBus t
          | none => false))
      if connected then []
      else
        [createError "OPEN_CIRCUIT" "led-resistor"
          "LED and resistor are not connected. They must share a common bus or be connected via wires."
          [("ledBuses", MVal.olist [ledAnodeBus, ledCathodeBus]),
            ("resistorBuses", MVal.list resistorBuses)]]
  | _, _ => []

/-- `checkCompletePaths(circuit, graph)`. -/
def checkCompletePaths (holes : List Hole) (circuit : Circuit) (graph : Graph) :
    List Diag :=
  match circuit.components.find? (fun c => c.type == "led" || c.type == "led-red-5mm") with
  | none => []
  | some led =>
    let ledCathodeBus := (lookupStr led.placement "cathode").bind (busMapGet holes)
    let ledAnodeBus := (lookupStr led.placement "anode").bind (busMapGet holes)
    let cathodeToGround := pathToGround holes circuit graph ledCathodeBus
    let e1 :=
      if !cathodeToGround then
        [createError "NO_GROUND_PATH" led.id
          "LED cathode does not have a path to ground. Check wiring and ground connections."
          [("cathodeBus", MVal.os ledCathodeBus)]]
      else []
    let anodeToSource := pathToPowerSource holes circuit graph ledAnodeBus
    let e2 :=
      if !anodeToSource.found then
        [createError "NO_SOURCE_PATH" led.id
          "LED anode does not have a path to a power source (Pico GPIO). Check wiring."
          [("anodeBus", MVal.os ledAnodeBus)]]
      else []
    e1 ++ e2

/-- The inner `while` loop of `findConnectedGroups`: collect one
connected group. Returns the final visited set and the group. -/
def bfsCollect (g : Graph) (visited queue group : List String) :
    List String × List String :=
  match queue with
  | [] => (visited, group)
  | node :: rest =>
    if memStr visited node then bfsCollect g visited rest group
    else
      bfsCollect g (node :: visited) (rest ++ neighborsOf g node) (group ++ [node])
termination_by unvisitedWeight g visited + queue.length
decreasing_by
  · simp only [List.length_cons]
    omega
  · apply uw_step
    simp only [Bool.not_eq_true] at *
    assumption

/-- `findConnectedGroups(graph)`: repeated BFS over the graph's keys with
a shared visited set. -/
def findConnectedGroups (g : Graph) : List (List String) :=
  ((g.map (fun p => p.1)).foldl
    (fun (acc : List String × List (List String)) startNode =>
      if memStr acc.1 startNode then acc
      else
        let r := bfsCollect g acc.1 [startNode] []
        (r.1, acc.2 ++ [r.2]))
    ([], [])).2

/-- `checkIsolatedComponents(circuit, graph)`. -/
def checkIsolatedComponents (_circuit : Circuit) (g : Graph) : List Diag :=
  let connectedGroups := findConnectedGroups g
  if connectedGroups.length > 1 then
    [createError "DISCONNECTED_GROUPS" "circuit"
      ("Circuit has " ++ toString connectedGroups.length ++
        " disconnected groups. All components must be part of the same circuit.")
      [("groupCount", MVal.nat connectedGroups.length),
        ("groupSizes", MVal.natList (connectedGroups.map (fun grp => grp.length)))]]
  else []

/-- `validateTopology(circuitJSON)`. -/
def validateTopology (holes : List Hole) (circuit : Circuit) : List Diag :=
  if circuit.components.length = 0 then
    [createError "EMPTY_CIRCUIT" "circuit" "Circuit has no components"]
  else if circuit.wires.length = 0 ∧ circuit.components.length > 0 then
    [createError "NO_CONNECTIONS" "circuit"
      "Circuit has components but no wires - nothing is connected"]
  else
    let graph := buildBusConnectivityGraph holes circuit
    checkSeriesConnections holes circuit graph ++
      checkCompletePaths holes circuit graph ++
      checkIsolatedComponents circuit graph

/-! ## Layer 5: component-specific rules -/

/-- `wire.properties?.signal_type === 'pwm' || wire.properties?.function
=== 'signal'`. -/
def isPWMSignal (w : Wire) : Bool :=
  (match jget w.properties "signal_type" with
    | .str s => s == "pwm"
    | _ => false) ||
  (match jget w.properties "function" with
    | .str s => s == "signal"
    | _ => false)

/-- Truthiness of an optional placement entry (`!component.placement.anode`). -/
def optTruthy (o : Option String) : Bool :=
  match o with
  | some s => !(s == "")
  | none => false

/-- `validateAgainstComponentRules(component, componentDef, circuit)`. -/
def validateAgainstComponentRules (holes : List Hole) (component : Component)
    (componentDef : ComponentDef) (circuit : Circuit) : List Diag :=
  match componentDef.validation with
  | none => []
  | some validation =>
    if !(truthy validation.rules) then []
    else
      let ledErrs :=
        if validation.electricalType = "led" then
          let anodeOpt := lookupStr component.placement "anode"
          let cathodeOpt := lookupStr component.placement "cathode"
          let e1 :=
            if !(optTruthy anodeOpt) || !(optTruthy cathodeOpt) then
              [createError "INVALID_LED_PLACEMENT" component.id
                "LED must have both \"anode\" and \"cathode\" pins defined in placement"]
            else []
          let e2 :=
            if optTruthy anodeOpt && optTruthy cathodeOpt then
              let anodeBus := anodeOpt.bind (busMapGet holes)
              let cathodeBus := cathodeOpt.bind (busMapGet holes)
              let cathodeHoles : List Hole :=
                match cathodeBus with
                | none => []
                | some b => holes.filter (fun h => h.bus == b)
              let anodeHoles : List Hole :=
                match anodeBus with
                | none => []
                | some b => holes.filter (fun h => h.bus == b)
              (if cathodeHoles.any (fun h => h.type == "power") then
                [createError "LED_REVERSED" component.id
                  "LED appears to be reversed - cathode is connected to power rail instead of ground"]
              else []) ++
              (if anodeHoles.any (fun h => h.type == "ground") then
                [createError "LED_REVERSED" component.id
                  "LED appears to be reversed - anode is connected to ground rail instead of power"]
              else [])
            else []
          e1 ++ e2
        else []
      let resistorErrs :=
        if validation.electricalType = "resistor" then
          if component.placement.length ≠ 2 then
            [createError "INVALID_RESISTOR_PLACEMENT" component.id
              "Resistor must have exactly 2 pins defined in placement"]
          else []
        else []
      let microErrs :=
        if validation.electricalType = "microcontroller" then
          let picoWires := circuit.wires.filter (fun w =>
            w.wfrom.startsWith (component.id ++ ".") ||
            w.wto.startsWith (component.id ++ "."))
          picoWires.flatMap (fun w =>
            if isPWMSignal w then
              let endpoint :=
                if w.wfrom.startsWith (component.id ++ ".") then w.wfrom else w.wto
              let pinName := (endpoint.splitOn ".").getD 1 ""
              match lookupStr (componentDef.pins.getD []) pinName with
              | some pinDef =>
                if pinDef.pwmCapable = some false then
                  [createError "INVALID_PWM_PIN" component.id
                    ("Pin " ++ pinName ++
                      " does not support PWM. Choose a PWM-capable GPIO pin (e.g., GP0-GP28).")
                    [("pin", MVal.s pinName), ("wireId", MVal.s w.id)]]
                else []
              | none => []
            else [])
        else []
      ledErrs ++ resistorErrs ++ microErrs

/-- `validateComponentRules(circuitJSON)`: per-component rule application
with load failures silently skipped (`catch? continue`). -/
def validateComponentRules (holes : List Hole) (env : Env) (st : VState)
    (circuit : Circuit) : List Diag × VState :=
  circuit.components.foldl
    (fun (acc : List Diag × VState) comp =>
      match loadComponent env acc.2 comp.type with
      | .error _ => acc
      | .ok (componentDef, st') =>
        match componentDef.validation with
        | some _ =>
          (acc.1 ++ validateAgainstComponentRules holes comp componentDef circuit, st')
        | none => (acc.1, st'))
    (([], st) : List Diag × VState)

/-! ## Main entry point (`validate`) -/

/-- The pipeline from layer 1 on (the part of `validate` that runs once
the component library is known to be loaded). -/
def validateRest (holes : List Hole) (env : Env) (st : VState) (circuitJSON : Json) :
    ValidationResult × VState :=
  let structuralErrors := validateSchema circuitJSON
  if 0 < structuralErrors.length then
    ({ valid := false, errors := structuralErrors, warnings := [] }, st)
  else
    let circuit := circuitOfJson circuitJSON
    let ref := validateReferences holes env st circuit
    let electricalErrors := validateElectricalRules holes circuit
    let electricalWarnings := checkElectricalWarnings circuit
    let topologyErrors := validateTopology holes circuit
    let comp := validateComponentRules holes env ref.2 circuit
    let errors := structuralErrors ++ ref.1 ++ electricalErrors ++
      topologyErrors ++ comp.1
    let warnings := electricalWarnings
    ({ valid := errors.isEmpty, errors := errors, warnings := warnings }, comp.2)

/-- `validate(circuitJSON)`: ensure the library is loaded (aborting with a
single `LIBRARY_LOAD_FAILED` diagnostic when `init` reports failure), then
run layers 1-5. -/
def validate (holes : List Hole) (env : Env) (st : VState) (circuitJSON : Json) :
    ValidationResult × VState :=
  match st.componentLibrary with
  | none =>
    let r := init env st
    if r.1 then validateRest holes env r.2 circuitJSON
    else
      ({ valid := false,
          errors := [createError "LIBRARY_LOAD_FAILED" "validator"
            "Failed to load component library"],
          warnings := [] }, r.2)
  | some _ => validateRest holes env st circuitJSON

/-! ## Basic lemmas about the JS collection primitives -/

theorem memStr_iff (l : List String) (x : String) : memStr l x = true ↔ x ∈ l := by
  induction l with
  | nil => simp [memStr]
  | cons a r ih =>
    simp only [memStr]
    by_cases h : a = x
    · simp [h]
    · simp only [if_neg h, ih, List.mem_cons]
      constructor
      · exact fun hx => Or.inr hx
      · rintro (hx | hx)
        · exact absurd hx.symm h
        · exact hx

theorem lookupStr_mem {α : Type} (l : List (String × α)) (k : String) (v : α)
    (h : lookupStr l k = some v) : (k, v) ∈ l := by
  induction l with
  | nil => simp [lookupStr] at h
  | cons p r ih =>
    simp only [lookupStr] at h
    by_cases hp : p.1 = k
    · rw [if_pos hp] at h
      injection h with h
      have hpv : p = (k, v) := by
        rw [← hp, ← h]
      rw [← hpv]
      exact List.mem_cons_self _ _
    · rw [if_neg hp] at h
      exact List.mem_cons_of_mem _ (ih h)

theorem lookupStr_append {α : Type} (l l' : List (String × α)) (k : String) :
    lookupStr (l ++ l') k = ((lookupStr l k).orElse (fun _ => lookupStr l' k)) := by
  induction l with
  | nil => simp [lookupStr]
  | cons p r ih =>
    simp only [lookupStr, List.cons_append]
    by_cases hp : p.1 = k
    · simp [hp]
    · simp [hp, ih]

theorem lookupStr_mapSet_self {α : Type} (l : List (String × α)) (k : String) (v : α) :
    lookupStr (mapSet l k v) k = some v := by
  unfold mapSet
  by_cases h : (lookupStr l k).isSome
  · rw [if_pos h]
    induction l with
    | nil => simp [lookupStr] at h
    | cons p r ih =>
      by_cases hp : p.1 = k
      · have hf : (if p.1 = k then (p.1, v) else p) = (k, v) := by
          rw [if_pos hp, hp]
        rw [List.map_cons, hf]
        simp [lookupStr]
      · simp only [List.map_cons, if_neg hp]
        simp only [lookupStr, if_neg hp] at h ⊢
        exact ih h
  · rw [if_neg h, lookupStr_append]
    cases hl : lookupStr l k with
    | none => simp [lookupStr]
    | some w =>
      rw [hl] at h
      simp at h

/-! ## C1: `valid` is true exactly when `errors` is empty -/

theorem validateRest_valid_eq (holes : List Hole) (env : Env) (st : VState)
    (j : Json) :
    (validateRest holes env st j).1.valid =
      (validateRest holes env st j).1.errors.isEmpty := by
  unfold validateRest
  by_cases h : 0 < (validateSchema j).length
  · have hne : validateSchema j ≠ [] := by
      intro he
      rw [he] at h
      simp at h
    simp only [if_pos h]
    simp [List.isEmpty_iff, hne]
  · simp only [if_neg h]

/-- C1: for every validation run, the `valid` field of the returned
`ValidationResult` is `true` iff the `errors` list is empty; the
`warnings` list plays no part in it. -/
theorem validate_valid_iff_errors_empty (holes : List Hole) (env : Env)
    (st : VState) (j : Json) :
    (validate holes env st j).1.valid = (validate holes env st j).1.errors.isEmpty := by
  unfold validate
  cases hlib : st.componentLibrary with
  | none =>
    by_cases hinit : (init env st).1
    · simp only [if_pos hinit]
      exact validateRest_valid_eq holes env (init env st).2 j
    · simp only [if_neg hinit]
      rfl
  | some lib => exact validateRest_valid_eq holes env st j

/-! ## C2: structural failure aborts the pipeline -/

/-- C2: when layer-1 schema validation produces at least one diagnostic,
`validate` returns exactly those structural diagnostics with `valid =
false` and no warnings — layers 2-5 contribute nothing (stated for an
initialized validator, where the library branch cannot interfere). -/
theorem validate_fail_fast_structural (holes : List Hole) (env : Env)
    (st : VState) (j : Json) (lib : Library)
    (hlib : st.componentLibrary = some lib) (hs : validateSchema j ≠ []) :
    (validate holes env st j).1 =
      { valid := false, errors := validateSchema j, warnings := [] } := by
  unfold validate
  rw [hlib]
  unfold validateRest
  have hlen : 0 < (validateSchema j).length := List.length_pos.mpr hs
  simp only [if_pos hlen]

/-- Sample breadboard holes for concrete witnesses. -/
def holesW : List Hole :=
  [⟨"1A", "bus1", "main"⟩, ⟨"1B", "bus1", "main"⟩, ⟨"2A", "bus2", "main"⟩,
    ⟨"2B", "bus2", "main"⟩, ⟨"3A", "bus3", "main"⟩, ⟨"P1", "buspower", "power"⟩,
    ⟨"G1", "busground", "ground"⟩]

/-- Sample library for concrete witnesses. -/
def libW : Library := ⟨[("led", "led.json")]⟩

/-- Environment whose component fetches fail (init succeeds). -/
def envW : Env :=
  { libraryFetch := some ⟨libW⟩, componentFetch := fun _ => none }

/-- An initialized validator state. -/
def stW : VState := { componentLibrary := some libW, loadedComponents := [] }

/-- A document whose only schema defect is the missing `components` array. -/
def jMissingComponents : Json :=
  Json.obj [("circuit", Json.obj
    [("metadata", Json.obj [("name", Json.str "n"), ("description", Json.str "d")]),
      ("wires", Json.arr [])])]

theorem validate_fail_fast_structural_witness :
    validateSchema jMissingComponents ≠ [] ∧
    (validate holesW envW stW jMissingComponents).1 =
      { valid := false, errors := validateSchema jMissingComponents, warnings := [] } :=
  ⟨by decide, validate_fail_fast_structural holesW envW stW jMissingComponents libW
    rfl (by decide)⟩

/-! ## C5: BFS reachability (`pathExists`) -/

/-- The edge relation of a connectivity graph: `b` is stored in `a`'s
adjacency set. -/
def adjRel (g : Graph) (a b : String) : Prop := b ∈ neighborsOf g a

/-- Graph-theoretic reachability: the reflexive-transitive closure of the
adjacency relation. -/
def Reach (g : Graph) : String → String → Prop :=
  Relation.ReflTransGen (adjRel g)

theorem pathExistsLoop_sound (g : Graph) (target s : String) :
    ∀ visited queue, (∀ q ∈ queue, Reach g s q) →
      pathExistsLoop g target visited queue = true → Reach g s target := by
  intro visited queue
  induction visited, queue using pathExistsLoop.induct g target with
  | case1 visited =>
    intro _ hrun
    rw [pathExistsLoop] at hrun
    exact absurd hrun (by simp)
  | case2 visited current rest hmem ih =>
    intro hinv hrun
    rw [pathExistsLoop, if_pos hmem] at hrun
    exact ih (fun q hq => hinv q (List.mem_cons_of_mem _ hq)) hrun
  | case3 visited rest hmem =>
    intro hinv _
    exact hinv target (List.mem_cons_self _ _)
  | case4 visited current rest hmem htgt ih =>
    intro hinv hrun
    rw [pathExistsLoop, if_neg hmem, if_neg htgt] at hrun
    refine ih ?_ hrun
    intro q hq
    rcases List.mem_append.mp hq with hq | hq
    · exact hinv q (List.mem_cons_of_mem _ hq)
    · exact Relation.ReflTransGen.tail (hinv current (List.mem_cons_self _ _)) hq

/-- The frontier invariant of the BFS: every neighbor of a visited node
is either visited or queued. -/
def InvBFS (g : Graph) (visited queue : List String) : Prop :=
  ∀ v ∈ visited, ∀ n ∈ neighborsOf g v, n ∈ visited ∨ n ∈ queue

/-- Crossing the visited boundary: a path from a visited node to an
unvisited one passes an edge from visited to unvisited. -/
theorem reach_boundary (g : Graph) (V : List String) (u t : String)
    (hr : Reach g u t) (hu : u ∈ V) (ht : t ∉ V) :
    ∃ w, w ∉ V ∧ Reach g w t ∧ ∃ v, v ∈ V ∧ adjRel g v w := by
  induction hr using Relation.ReflTransGen.head_induction_on with
  | refl => exact absurd hu ht
  | head hac hcb ih =>
    rename_i a c
    by_cases hc : c ∈ V
    · exact ih hc
    · exact ⟨c, hc, hcb, a, hu, hac⟩

theorem pathExistsLoop_complete (g : Graph) (target : String) :
    ∀ visited queue, InvBFS g visited queue → target ∉ visited →
      (∃ u ∈ queue, Reach g u target) →
      pathExistsLoop g target visited queue = true := by
  intro visited queue
  induction visited, queue using pathExistsLoop.induct g target with
  | case1 visited =>
    rintro _ _ ⟨u, hu, _⟩
    exact absurd hu (List.not_mem_nil _)
  | case2 visited current rest hmem ih =>
    intro hinv htv ⟨u, hu, hur⟩
    rw [pathExistsLoop, if_pos hmem]
    have hcv : current ∈ visited := (memStr_iff _ _).mp hmem
    have hinv' : InvBFS g visited rest := by
      intro v hv n hn
      rcases hinv v hv n hn with hn' | hn'
      · exact Or.inl hn'
      · rcases List.mem_cons.mp hn' with hn' | hn'
        · exact Or.inl (hn' ▸ hcv)
        · exact Or.inr hn'
    refine ih hinv' htv ?_
    rcases List.mem_cons.mp hu with hu' | hu'
    · subst hu'
      obtain ⟨w, hwV, hwt, v, hvV, hadj⟩ := reach_boundary g visited u target hur hcv htv
      rcases hinv v hvV w hadj with hw | hw
      · exact absurd hw hwV
      · rcases List.mem_cons.mp hw with hw | hw
        · exact absurd (hw ▸ hcv) hwV
        · exact ⟨w, hw, hwt⟩
    · exact ⟨u, hu', hur⟩
  | case3 visited rest hmem =>
    intro _ _ _
    rw [pathExistsLoop, if_neg hmem, if_pos rfl]
  | case4 visited current rest hmem htgt ih =>
    intro hinv htv ⟨u, hu, hur⟩
    rw [pathExistsLoop, if_neg hmem, if_neg htgt]
    have hinv' : InvBFS g (current :: visited) (rest ++ neighborsOf g current) := by
      intro v hv n hn
      rcases List.mem_cons.mp hv with hv' | hv'
      · subst hv'
        exact Or.inr (List.mem_append.mpr (Or.inr hn))
      · rcases hinv v hv' n hn with hn' | hn'
        · exact Or.inl (List.mem_cons_of_mem _ hn')
        · rcases List.mem_cons.mp hn' with hn' | hn'
          · exact Or.inl (hn' ▸ List.mem_cons_self _ _)
          · exact Or.inr (List.mem_append.mpr (Or.inl hn'))
    have htv' : target ∉ current :: visited := by
      intro hc
      rcases List.mem_cons.mp hc with hc | hc
      · exact htgt hc.symm
      · exact htv hc
    refine ih hinv' htv' ?_
    rcases List.mem_cons.mp hu with hu' | hu'
    · subst hu'
      rcases (Relation.ReflTransGen.cases_head hur) with heq | ⟨c, hc, hct⟩
      · exact absurd heq htgt
      · exact ⟨c, List.mem_append.mpr (Or.inr hc), hct⟩
    · exact ⟨u, List.mem_append.mpr (Or.inl hu'), hur⟩

/-- `pathExists` computes exactly graph reachability. -/
theorem pathExists_iff_reach (g : Graph) (s t : String) :
    pathExists g s t = true ↔ Reach g s t := by
  unfold pathExists
  by_cases h : s = t
  · subst h
    constructor
    · intro _
      exact Relation.ReflTransGen.refl
    · intro _
      rw [if_pos rfl]
  · rw [if_neg h]
    constructor
    · refine pathExistsLoop_sound g t s [] [s] ?_
      intro q hq
      rcases List.mem_cons.mp hq with hq | hq
      · subst hq
        exact Relation.ReflTransGen.refl
      · exact absurd hq (List.not_mem_nil _)
    · intro hr
      refine pathExistsLoop_complete g t [] [s] ?_ (List.not_mem_nil _) ⟨s, List.mem_cons_self _ _, hr⟩
      intro v hv
      exact absurd hv (List.not_mem_nil _)

/-- C5: `pathExists(graph, startBus, targetBus)` returns `true` iff
`targetBus` is reachable from `startBus` along graph edges, and in
particular equal buses (the same graph node, e.g. two holes sharing a
bus) are always mutually reachable. -/
theorem pathExists_characterization (g : Graph) (s t : String) :
    (pathExists g s t = true ↔ Reach g s t) ∧ pathExists g s s = true :=
  ⟨pathExists_iff_reach g s t, by unfold pathExists; rw [if_pos rfl]⟩

/-! ## C6: the built graph is symmetric, irreflexive, and only holds
resolved buses -/

theorem mem_setAdd (l : List String) (y x : String) :
    x ∈ setAdd l y ↔ x ∈ l ∨ x = y := by
  unfold setAdd
  by_cases h : memStr l y
  · rw [if_pos h]
    constructor
    · exact fun hx => Or.inl hx
    · rintro (hx | hx)
      · exact hx
      · exact hx ▸ (memStr_iff _ _).mp h
  · rw [if_neg h]
    simp

theorem neighborsOf_graphEnsure (g : Graph) (b a : String) :
    neighborsOf (graphEnsure g b) a = neighborsOf g a := by
  unfold graphEnsure
  by_cases h : (lookupStr g b).isSome
  · rw [if_pos h]
  · rw [if_neg h]
    unfold neighborsOf
    rw [lookupStr_append]
    cases hl : lookupStr g a with
    | none =>
      by_cases hab : a = b
      · subst hab
        simp [lookupStr, hl]
      · simp [lookupStr, hl, Ne.symm hab]
    | some l => simp [hl]

theorem graphEnsure_isSome (g : Graph) (b : String) :
    (lookupStr (graphEnsure g b) b).isSome = true := by
  unfold graphEnsure
  by_cases h : (lookupStr g b).isSome
  · rw [if_pos h]
    exact h
  · rw [if_neg h, lookupStr_append]
    cases hl : lookupStr g b with
    | none => simp [lookupStr]
    | some l =>
      rw [hl] at h
      simp at h

theorem lookupStr_graphEnsure_ne (g : Graph) (b a : String) (hab : a ≠ b) :
    lookupStr (graphEnsure g b) a = lookupStr g a := by
  unfold graphEnsure
  by_cases h : (lookupStr g b).isSome
  · rw [if_pos h]
  · rw [if_neg h, lookupStr_append]
    cases hl : lookupStr g a with
    | none => simp [lookupStr, Ne.symm hab]
    | some l => simp

theorem lookupStr_graphAdd_ne (g : Graph) (b x a : String) (hab : a ≠ b) :
    lookupStr (graphAdd g b x) a = lookupStr g a := by
  induction g with
  | nil => rfl
  | cons p r ih =>
    have hcons : graphAdd (p :: r) b x =
        (if p.1 = b then (p.1, setAdd p.2 x) else p) :: graphAdd r b x := rfl
    rw [hcons]
    by_cases hp : p.1 = b
    · rw [if_pos hp]
      have hpa : ¬(p.1 = a) := fun hc => hab (hc ▸ hp)
      simp only [lookupStr]
      rw [if_neg hpa, if_neg hpa]
      exact ih
    · rw [if_neg hp]
      simp only [lookupStr]
      by_cases hpa : p.1 = a
      · rw [if_pos hpa, if_pos hpa]
      · rw [if_neg hpa, if_neg hpa]
        exact ih

theorem lookupStr_graphAdd_self (g : Graph) (b x : String) (l : List String)
    (hl : lookupStr g b = some l) :
    lookupStr (graphAdd g b x) b = some (setAdd l x) := by
  induction g with
  | nil => simp [lookupStr] at hl
  | cons p r ih =>
    have hcons : graphAdd (p :: r) b x =
        (if p.1 = b then (p.1, setAdd p.2 x) else p) :: graphAdd r b x := rfl
    rw [hcons]
    by_cases hp : p.1 = b
    · rw [if_pos hp]
      simp only [lookupStr] at hl ⊢
      rw [if_pos hp] at hl
      injection hl with hl
      subst hl
      rw [if_pos hp]
    · rw [if_neg hp]
      simp only [lookupStr] at hl ⊢
      rw [if_neg hp] at hl ⊢
      exact ih hl

/-- The full effect of `addEdge` on adjacency sets (in the non-degenerate
case): `b2` is appended to `b1`'s set and vice versa. -/
theorem neighborsOf_addEdge (g : Graph) (b1 b2 : String)
    (h1 : b1 ≠ "") (h2 : b2 ≠ "") (h12 : b1 ≠ b2) (a : String) :
    neighborsOf (addEdge g b1 b2) a =
      if a = b1 then setAdd (neighborsOf g b1) b2
      else if a = b2 then setAdd (neighborsOf g b2) b1
      else neighborsOf g a := by
  have hguard : ¬(b1 = "" ∨ b2 = "" ∨ b1 = b2) := by
    rintro (hc | hc | hc)
    · exact h1 hc
    · exact h2 hc
    · exact h12 hc
  unfold addEdge
  rw [if_neg hguard]
  have hE2b2 : (lookupStr (graphEnsure (graphEnsure g b1) b2) b2).isSome = true :=
    graphEnsure_isSome _ _
  obtain ⟨l2, hl2⟩ := Option.isSome_iff_exists.mp hE2b2
  have hl2v : l2 = neighborsOf g b2 := by
    have : neighborsOf (graphEnsure (graphEnsure g b1) b2) b2 = neighborsOf g b2 := by
      rw [neighborsOf_graphEnsure, neighborsOf_graphEnsure]
    unfold neighborsOf at this
    rw [hl2] at this
    exact this
  have hE2b1 : lookupStr (graphEnsure (graphEnsure g b1) b2) b1 =
      lookupStr (graphEnsure g b1) b1 :=
    lookupStr_graphEnsure_ne _ _ _ h12
  have hE1b1 : (lookupStr (graphEnsure g b1) b1).isSome = true :=
    graphEnsure_isSome _ _
  obtain ⟨l1, hl1⟩ := Option.isSome_iff_exists.mp hE1b1
  have hl1v : l1 = neighborsOf g b1 := by
    have : neighborsOf (graphEnsure g b1) b1 = neighborsOf g b1 :=
      neighborsOf_graphEnsure _ _ _
    unfold neighborsOf at this
    rw [hl1] at this
    exact this
  -- A1 := graphAdd E2 b1 b2
  have hA1b1 : lookupStr (graphAdd (graphEnsure (graphEnsure g b1) b2) b1 b2) b1 =
      some (setAdd l1 b2) :=
    lookupStr_graphAdd_self _ _ _ _ (hE2b1.trans hl1)
  have hA1b2 : lookupStr (graphAdd (graphEnsure (graphEnsure g b1) b2) b1 b2) b2 =
      some l2 := by
    rw [lookupStr_graphAdd_ne _ _ _ _ (fun hc => h12 hc.symm)]
    exact hl2
  by_cases hab1 : a = b1
  · subst hab1
    rw [if_pos rfl]
    unfold neighborsOf
    rw [lookupStr_graphAdd_ne _ _ _ _ h12, hA1b1, hl1v]
    rfl
  · rw [if_neg hab1]
    by_cases hab2 : a = b2
    · subst hab2
      rw [if_pos rfl]
      unfold neighborsOf
      rw [lookupStr_graphAdd_self _ _ _ _ hA1b2, hl2v]
      rfl
    · rw [if_neg hab2]
      unfold neighborsOf
      rw [lookupStr_graphAdd_ne _ _ _ _ hab2, lookupStr_graphAdd_ne _ _ _ _ hab1,
        lookupStr_graphEnsure_ne _ _ _ hab2, lookupStr_graphEnsure_ne _ _ _ hab1]

/-- The invariant maintained by graph construction: symmetry,
irreflexivity, and no unresolved (empty) bus names. -/
def GraphInv (g : Graph) : Prop :=
  (∀ a b, adjRel g a b → adjRel g b a) ∧
  (∀ a, ¬ adjRel g a a) ∧
  (∀ a b, adjRel g a b → a ≠ "" ∧ b ≠ "")

theorem graphInv_nil : GraphInv [] := by
  refine ⟨?_, ?_, ?_⟩ <;> intro a <;>
    simp [adjRel, neighborsOf, lookupStr]

theorem graphInv_addEdge (g : Graph) (b1 b2 : String) (hg : GraphInv g) :
    GraphInv (addEdge g b1 b2) := by
  by_cases hguard : b1 = "" ∨ b2 = "" ∨ b1 = b2
  · unfold addEdge
    rw [if_pos hguard]
    exact hg
  · push_neg at hguard
    obtain ⟨h1, h2, h12⟩ := hguard
    obtain ⟨hsym, hirr, hne⟩ := hg
    have hchar : ∀ a c, adjRel (addEdge g b1 b2) a c ↔
        (adjRel g a c ∨ (a = b1 ∧ c = b2) ∨ (a = b2 ∧ c = b1)) := by
      intro a c
      unfold adjRel
      rw [neighborsOf_addEdge g b1 b2 h1 h2 h12 a]
      by_cases hab1 : a = b1
      · subst hab1
        rw [if_pos rfl, mem_setAdd]
        constructor
        · rintro (hc | hc)
          · exact Or.inl hc
          · exact Or.inr (Or.inl ⟨rfl, hc⟩)
        · rintro (hc | ⟨_, hc⟩ | ⟨hc, _⟩)
          · exact Or.inl hc
          · exact Or.inr hc
          · exact absurd hc h12
      · rw [if_neg hab1]
        by_cases hab2 : a = b2
        · subst hab2
          rw [if_pos rfl, mem_setAdd]
          constructor
          · rintro (hc | hc)
            · exact Or.inl hc
            · exact Or.inr (Or.inr ⟨rfl, hc⟩)
          · rintro (hc | ⟨hc, _⟩ | ⟨_, hc⟩)
            · exact Or.inl hc
            · exact absurd hc (fun hcc => h12 hcc.symm)
            · exact Or.inr hc
        · rw [if_neg hab2]
          constructor
          · exact fun hc => Or.inl hc
          · rintro (hc | ⟨hc, _⟩ | ⟨hc, _⟩)
            · exact hc
            · exact absurd hc hab1
            · exact absurd hc hab2
    refine ⟨?_, ?_, ?_⟩
    · intro a c hac
      rcases (hchar a c).mp hac with hc | ⟨ha, hc⟩ | ⟨ha, hc⟩
      · exact (hchar c a).mpr (Or.inl (hsym a c hc))
      · exact (hchar c a).mpr (Or.inr (Or.inr ⟨hc, ha⟩))
      · exact (hchar c a).mpr (Or.inr (Or.inl ⟨hc, ha⟩))
    · intro a haa
      rcases (hchar a a).mp haa with hc | ⟨ha, hc⟩ | ⟨ha, hc⟩
      · exact hirr a hc
      · exact absurd (ha.symm.trans hc) h12
      · exact absurd (hc.symm.trans ha) h12
    · intro a c hac
      rcases (hchar a c).mp hac with hc | ⟨ha, hc⟩ | ⟨ha, hc⟩
      · exact hne a c hc
      · exact ⟨ha ▸ h1, hc ▸ h2⟩
      · exact ⟨ha ▸ h2, hc ▸ h1⟩

theorem graphInv_foldl {β : Type} (f : Graph → β → Graph)
    (hf : ∀ g x, GraphInv g → GraphInv (f g x)) (l : List β) :
    ∀ g, GraphInv g → GraphInv (l.foldl f g) := by
  induction l with
  | nil => exact fun g hg => hg
  | cons x xs ih =>
    intro g hg
    exact ih (f g x) (hf g x hg)

theorem graphInv_pairEdges (buses : List String) :
    ∀ g, GraphInv g → GraphInv (pairEdges g buses) := by
  induction buses with
  | nil => exact fun g hg => hg
  | cons b rest ih =>
    intro g hg
    unfold pairEdges
    exact ih _ (graphInv_foldl (fun acc x => addEdge acc b x)
      (fun g' x hg' => graphInv_addEdge g' b x hg') rest g hg)

/-- The whole constructed bus-connectivity graph satisfies the invariant. -/
theorem graphInv_build (holes : List Hole) (circuit : Circuit) :
    GraphInv (buildBusConnectivityGraph holes circuit) := by
  unfold buildBusConnectivityGraph
  refine graphInv_foldl _ ?_ circuit.wires _
    (graphInv_foldl _ ?_ circuit.components _ graphInv_nil)
  · intro g w hg
    cases getEndpointBus holes circuit w.wfrom with
    | none => exact hg
    | some a =>
      cases getEndpointBus holes circuit w.wto with
      | none => exact hg
      | some b =>
        by_cases hc : a = "" ∨ b = ""
        · simp only [if_pos hc]
          exact hg
        · simp only [if_neg hc]
          exact graphInv_addEdge g a b hg
  · intro g comp hg
    exact graphInv_pairEdges _ g hg

/-- C6: the graph built by `buildBusConnectivityGraph` is symmetric
(`b` is adjacent to `a` iff `a` is adjacent to `b`), irreflexive (no
self-loops survive), and every stored endpoint is a resolved, non-empty
bus name. -/
theorem buildBusConnectivityGraph_sym_irrefl (holes : List Hole) (circuit : Circuit) :
    (∀ a b, b ∈ neighborsOf (buildBusConnectivityGraph holes circuit) a ↔
        a ∈ neighborsOf (buildBusConnectivityGraph holes circuit) b) ∧
    (∀ a, a ∉ neighborsOf (buildBusConnectivityGraph holes circuit) a) ∧
    (∀ a b, b ∈ neighborsOf (buildBusConnectivityGraph holes circuit) a →
        a ≠ "" ∧ b ≠ "") := by
  obtain ⟨hsym, hirr, hne⟩ := graphInv_build holes circuit
  exact ⟨fun a b => ⟨fun h => hsym a b h, fun h => hsym b a h⟩, hirr, hne⟩

/-- Reachability in a symmetric graph is symmetric. -/
theorem reach_symm (g : Graph) (hsym : ∀ a b, adjRel g a b → adjRel g b a)
    {a b : String} (h : Reach g a b) : Reach g b a := by
  induction h with
  | refl => exact Relation.ReflTransGen.refl
  | tail hac hcd ih =>
    rename_i c d
    exact Relation.ReflTransGen.head (hsym c d hcd) ih

/-! ## C4: the series-connection check (`OPEN_CIRCUIT`) -/

/-- The bus under a named LED pin (`busMap.get(led.placement.anode)`). -/
def LedPinBus (holes : List Hole) (led : Component) (pin : String) : Option String :=
  (lookupStr led.placement pin).bind (busMapGet holes)

/-- The resolved buses of the resistor's placed pins (the `resistorBuses`
array of `checkSeriesConnections`). -/
def seriesResistorBuses (holes : List Hole) (resistor : Component) : List String :=
  ((resistor.placement.map (fun p => p.2)).filterMap (busMapGet holes)).filter
    (fun b => !(b == ""))

/-- Spec-side rendering of "a resistor pin bus coincides with the LED
anode or cathode bus". -/
def SeriesDirect (holes : List Hole) (led resistor : Component) : Prop :=
  (∃ t, LedPinBus holes led "anode" = some t ∧ t ∈ seriesResistorBuses holes resistor) ∨
  (∃ t, LedPinBus holes led "cathode" = some t ∧ t ∈ seriesResistorBuses holes resistor)

/-- Spec-side rendering of "a resistor pin bus is reachable in the bus
graph from one of the LED buses". -/
def SeriesReachable (holes : List Hole) (circuit : Circuit)
    (led resistor : Component) : Prop :=
  ∃ r ∈ seriesResistorBuses holes resistor,
    (∃ t, LedPinBus holes led "anode" = some t ∧
      Reach (buildBusConnectivityGraph holes circuit) t r) ∨
    (∃ t, LedPinBus holes led "cathode" = some t ∧
      Reach (buildBusConnectivityGraph holes circuit) t r)

theorem optIncl_iff (rbuses : List String) (o : Option String) :
    (match o with
      | some b => memStr rbuses b
      | none => false) = true ↔ ∃ t, o = some t ∧ t ∈ rbuses := by
  cases o with
  | none => simp
  | some b => simp [memStr_iff]

theorem optPath_iff (g : Graph) (hsym : ∀ a b, adjRel g a b → adjRel g b a)
    (rBus : String) (o : Option String) :
    (match o with
      | some t => pathExists g rBus t
      | none => false) = true ↔ ∃ t, o = some t ∧ Reach g t rBus := by
  cases o with
  | none => simp
  | some t =>
    simp only [Option.some.injEq]
    rw [pathExists_iff_reach]
    constructor
    · exact fun h => ⟨t, rfl, reach_symm g hsym h⟩
    · rintro ⟨t', ht', hr⟩
      subst ht'
      exact reach_symm g hsym hr

/-- C4: with an LED-like and a resistor-like component found, the series
check emits `OPEN_CIRCUIT` (carrying both components' candidate buses)
exactly when no resistor pin bus coincides with, or is reachable in the
bus graph from, the LED anode/cathode buses. -/
theorem checkSeriesConnections_open_circuit
    (holes : List Hole) (circuit : Circuit) (led resistor : Component)
    (hled : circuit.components.find?
      (fun c => c.type == "led" || c.type == "led-red-5mm") = some led)
    (hres : circuit.components.find?
      (fun c => c.type == "resistor" || c.type == "resistor-220") = some resistor) :
    (checkSeriesConnections holes circuit (buildBusConnectivityGraph holes circuit) = [] ↔
      (SeriesDirect holes led resistor ∨ SeriesReachable holes circuit led resistor)) ∧
    (¬(SeriesDirect holes led resistor ∨ SeriesReachable holes circuit led resistor) →
      checkSeriesConnections holes circuit (buildBusConnectivityGraph holes circuit) =
        [createError "OPEN_CIRCUIT" "led-resistor"
          "LED and resistor are not connected. They must share a common bus or be connected via wires."
          [("ledBuses", MVal.olist
              [LedPinBus holes led "anode", LedPinBus holes led "cathode"]),
            ("resistorBuses", MVal.list (seriesResistorBuses holes resistor))]]) := by
  have hsym : ∀ a b, adjRel (buildBusConnectivityGraph holes circuit) a b →
      adjRel (buildBusConnectivityGraph holes circuit) b a :=
    (graphInv_build holes circuit).1
  unfold checkSeriesConnections
  rw [hled, hres]
  simp only []
  have hfoldR : (List.filter (fun b => !b == "")
      (List.filterMap (busMapGet holes) (List.map (fun p => p.2) resistor.placement))) =
      seriesResistorBuses holes resistor := rfl
  have hfoldA : (lookupStr led.placement "anode").bind (busMapGet holes) =
      LedPinBus holes led "anode" := rfl
  have hfoldC : (lookupStr led.placement "cathode").bind (busMapGet holes) =
      LedPinBus holes led "cathode" := rfl
  rw [hfoldR, hfoldA, hfoldC]
  have hdir : ((match LedPinBus holes led "anode" with
      | some b => memStr (seriesResistorBuses holes resistor) b
      | none => false) ||
      (match LedPinBus holes led "cathode" with
      | some b => memStr (seriesResistorBuses holes resistor) b
      | none => false)) = true ↔ SeriesDirect holes led resistor := by
    rw [Bool.or_eq_true, optIncl_iff, optIncl_iff]
    unfold SeriesDirect
    exact Iff.rfl
  have hconn : ((seriesResistorBuses holes resistor).any (fun rBus =>
      (match LedPinBus holes led "anode" with
        | some t => pathExists (buildBusConnectivityGraph holes circuit) rBus t
        | none => false) ||
      (match LedPinBus holes led "cathode" with
        | some t => pathExists (buildBusConnectivityGraph holes circuit) rBus t
        | none => false))) = true ↔
      SeriesReachable holes circuit led resistor := by
    rw [List.any_eq_true]
    unfold SeriesReachable
    constructor
    · rintro ⟨r, hr, hor⟩
      rw [Bool.or_eq_true, optPath_iff _ hsym, optPath_iff _ hsym] at hor
      exact ⟨r, hr, hor⟩
    · rintro ⟨r, hr, hor⟩
      refine ⟨r, hr, ?_⟩
      rw [Bool.or_eq_true, optPath_iff _ hsym, optPath_iff _ hsym]
      exact hor
  constructor
  · by_cases hd : (match LedPinBus holes led "anode" with
        | some b => memStr (seriesResistorBuses holes resistor) b
        | none => false) ||
        (match LedPinBus holes led "cathode" with
        | some b => memStr (seriesResistorBuses holes resistor) b
        | none => false)
    · rw [if_pos hd]
      simp only [true_iff]
      exact Or.inl (hdir.mp hd)
    · rw [if_neg hd]
      by_cases hc : (seriesResistorBuses holes resistor).any (fun rBus =>
          (match LedPinBus holes led "anode" with
            | some t => pathExists (buildBusConnectivityGraph holes circuit) rBus t
            | none => false) ||
          (match LedPinBus holes led "cathode" with
            | some t => pathExists (buildBusConnectivityGraph holes circuit) rBus t
            | none => false))
      · rw [if_pos hc]
        simp only [true_iff]
        exact Or.inr (hconn.mp hc)
      · rw [if_neg hc]
        constructor
        · intro hfalse
          exact absurd hfalse (by simp)
        · rintro (hD | hR)
          · exact absurd (hdir.mpr hD) (by simpa using hd)
          · exact absurd (hconn.mpr hR) (by simpa using hc)
  · intro hnot
    push_neg at hnot
    obtain ⟨hD, hR⟩ := hnot
    have hd : ¬((match LedPinBus holes led "anode" with
        | some b => memStr (seriesResistorBuses holes resistor) b
        | none => false) ||
        (match LedPinBus holes led "cathode" with
        | some b => memStr (seriesResistorBuses holes resistor) b
        | none => false)) = true := fun hcc => hD (hdir.mp hcc)
    have hc : ¬((seriesResistorBuses holes resistor).any (fun rBus =>
        (match LedPinBus holes led "anode" with
          | some t => pathExists (buildBusConnectivityGraph holes circuit) rBus t
          | none => false) ||
        (match LedPinBus holes led "cathode" with
          | some t => pathExists (buildBusConnectivityGraph holes circuit) rBus t
          | none => false))) = true := fun hcc => hR (hconn.mp hcc)
    rw [if_neg hd, if_neg hc]

/-- A sample LED placed on `bus2`/`bus3`. -/
def ledW : Component := ⟨"led1", "led", [("anode", "2A"), ("cathode", "3A")]⟩

/-- A sample resistor placed on `bus1`/`bus2` (sharing `bus2` with the LED). -/
def resistorW : Component := ⟨"r1", "resistor", [("pin0", "1A"), ("pin1", "2B")]⟩

/-- A circuit where the LED and resistor share a bus directly. -/
def circuitSeriesW : Circuit := ⟨[ledW, resistorW], []⟩

theorem checkSeriesConnections_open_circuit_witness :
    checkSeriesConnections holesW circuitSeriesW
      (buildBusConnectivityGraph holesW circuitSeriesW) = [] :=
  (checkSeriesConnections_open_circuit holesW circuitSeriesW ledW resistorW
      (by decide) (by decide)).1.mpr
    (Or.inl (Or.inl ⟨"bus2", by decide, by decide⟩))

/-! ## C3: bus conflicts within one component (`SHORT_CIRCUIT`) -/

/-- The pins of `pb` that sit on `bus`, in order (what
`busCounts[bus]` holds after the grouping loop). -/
def pinsOf (pb : List PinBus) (bus : String) : List String :=
  (pb.filter (fun x => x.bus == bus)).map (fun x => x.pin)

theorem pinsOf_cons (x : PinBus) (pb : List PinBus) (bus : String) :
    pinsOf (x :: pb) bus =
      if x.bus = bus then x.pin :: pinsOf pb bus else pinsOf pb bus := by
  unfold pinsOf
  by_cases hx : x.bus = bus
  · simp [List.filter_cons, hx]
  · simp [List.filter_cons, hx]

theorem lookupStr_mapApp_ne (acc : List (String × List String)) (k x a : String)
    (hak : a ≠ k) :
    lookupStr (acc.map (fun e => if e.1 = k then (e.1, e.2 ++ [x]) else e)) a =
      lookupStr acc a := by
  induction acc with
  | nil => rfl
  | cons p r ih =>
    have hcons : (p :: r).map (fun e => if e.1 = k then (e.1, e.2 ++ [x]) else e) =
        (if p.1 = k then (p.1, p.2 ++ [x]) else p) ::
          r.map (fun e => if e.1 = k then (e.1, e.2 ++ [x]) else e) := rfl
    rw [hcons]
    by_cases hp : p.1 = k
    · rw [if_pos hp]
      have hpa : ¬(p.1 = a) := fun hc => hak (hc ▸ hp)
      simp only [lookupStr]
      rw [if_neg hpa, if_neg hpa]
      exact ih
    · rw [if_neg hp]
      simp only [lookupStr]
      by_cases hpa : p.1 = a
      · rw [if_pos hpa, if_pos hpa]
      · rw [if_neg hpa, if_neg hpa]
        exact ih

theorem lookupStr_mapApp_self (acc : List (String × List String)) (k x : String)
    (l : List String) (hl : lookupStr acc k = some l) :
    lookupStr (acc.map (fun e => if e.1 = k then (e.1, e.2 ++ [x]) else e)) k =
      some (l ++ [x]) := by
  induction acc with
  | nil => simp [lookupStr] at hl
  | cons p r ih =>
    have hcons : (p :: r).map (fun e => if e.1 = k then (e.1, e.2 ++ [x]) else e) =
        (if p.1 = k then (p.1, p.2 ++ [x]) else p) ::
          r.map (fun e => if e.1 = k then (e.1, e.2 ++ [x]) else e) := rfl
    rw [hcons]
    by_cases hp : p.1 = k
    · rw [if_pos hp]
      simp only [lookupStr] at hl ⊢
      rw [if_pos hp] at hl
      injection hl with hl
      subst hl
      rw [if_pos hp]
    · rw [if_neg hp]
      simp only [lookupStr] at hl ⊢
      rw [if_neg hp] at hl ⊢
      exact ih hl

theorem lookupStr_insertGroup (acc : List (String × List String)) (pb : PinBus)
    (bus : String) :
    lookupStr (insertGroup acc pb) bus =
      if pb.bus = bus then
        (match lookupStr acc bus with
          | some l => some (l ++ [pb.pin])
          | none => some [pb.pin])
      else lookupStr acc bus := by
  unfold insertGroup
  by_cases hk : (lookupStr acc pb.bus).isSome
  · rw [if_pos hk]
    by_cases hb : pb.bus = bus
    · subst hb
      obtain ⟨l, hl⟩ := Option.isSome_iff_exists.mp hk
      rw [if_pos rfl, hl, lookupStr_mapApp_self acc pb.bus pb.pin l hl]
    · rw [if_neg hb, lookupStr_mapApp_ne acc pb.bus pb.pin bus (fun hc => hb hc.symm)]
  · rw [if_neg hk, lookupStr_append]
    by_cases hb : pb.bus = bus
    · subst hb
      have hnone : lookupStr acc pb.bus = none := by
        cases hx : lookupStr acc pb.bus with
        | none => rfl
        | some l =>
          rw [hx] at hk
          simp at hk
      rw [if_pos rfl, hnone]
      simp [lookupStr]
    · rw [if_neg hb]
      cases hx : lookupStr acc bus with
      | none => simp [lookupStr, hb]
      | some l => simp

theorem lookupStr_groupFold (pb : List PinBus) :
    ∀ (acc : List (String × List String)) (bus : String),
      lookupStr (pb.foldl insertGroup acc) bus =
        (match lookupStr acc bus with
          | some l => some (l ++ pinsOf pb bus)
          | none =>
            if pinsOf pb bus = [] then none else some (pinsOf pb bus)) := by
  induction pb with
  | nil =>
    intro acc bus
    simp only [List.foldl_nil, pinsOf, List.filter_nil, List.map_nil]
    cases hx : lookupStr acc bus with
    | none => simp
    | some l => simp
  | cons x pb ih =>
    intro acc bus
    rw [List.foldl_cons, ih (insertGroup acc x) bus, lookupStr_insertGroup, pinsOf_cons]
    by_cases hx : x.bus = bus
    · rw [if_pos hx, if_pos hx]
      cases hacc : lookupStr acc bus with
      | none =>
        simp only []
        by_cases hpe : pinsOf pb bus = []
        · simp [hpe]
        · simp [hpe]
      | some l =>
        simp only []
        rw [List.append_assoc]
        rfl
    · rw [if_neg hx, if_neg hx]

theorem lookupStr_eq_none_iff {α : Type} (l : List (String × α)) (k : String) :
    lookupStr l k = none ↔ k ∉ l.map Prod.fst := by
  induction l with
  | nil => simp [lookupStr]
  | cons p r ih =>
    simp only [lookupStr, List.map_cons, List.mem_cons, not_or]
    by_cases hp : p.1 = k
    · simp [hp]
    · simp only [if_neg hp, ih]
      constructor
      · exact fun h => ⟨fun hc => hp hc.symm, h⟩
      · exact fun h => h.2

theorem groupFold_keys_nodup (pb : List PinBus) :
    ∀ (acc : List (String × List String)), (acc.map Prod.fst).Nodup →
      ((pb.foldl insertGroup acc).map Prod.fst).Nodup := by
  induction pb with
  | nil => exact fun acc h => h
  | cons x pb ih =>
    intro acc hacc
    rw [List.foldl_cons]
    refine ih (insertGroup acc x) ?_
    unfold insertGroup
    by_cases hk : (lookupStr acc x.bus).isSome
    · rw [if_pos hk]
      have hmap : (acc.map (fun e => if e.1 = x.bus then (e.1, e.2 ++ [x.pin]) else e)).map
          Prod.fst = acc.map Prod.fst := by
        rw [List.map_map]
        apply List.map_congr_left
        intro e _
        by_cases he : e.1 = x.bus
        · simp [he]
        · simp [he]
      rw [hmap]
      exact hacc
    · rw [if_neg hk]
      rw [List.map_append]
      have hx : x.bus ∉ acc.map Prod.fst := by
        refine (lookupStr_eq_none_iff acc x.bus).mp ?_
        cases hl : lookupStr acc x.bus with
        | none => rfl
        | some l =>
          rw [hl] at hk
          simp at hk
      refine List.Nodup.append hacc (by simp) ?_
      intro a ha hb
      simp only [List.map_cons, List.map_nil, List.mem_singleton] at hb
      subst hb
      exact hx ha

theorem mem_lookup_of_nodup {α : Type} (l : List (String × α))
    (hnd : (l.map Prod.fst).Nodup) (e : String × α) (he : e ∈ l) :
    lookupStr l e.1 = some e.2 := by
  induction l with
  | nil => exact absurd he (List.not_mem_nil _)
  | cons p r ih =>
    simp only [List.map_cons, List.nodup_cons] at hnd
    rcases List.mem_cons.mp he with he' | he'
    · subst he'
      simp [lookupStr]
    · have hne : ¬(p.1 = e.1) := by
        intro hc
        exact hnd.1 (hc ▸ List.mem_map_of_mem Prod.fst he')
      simp only [lookupStr, if_neg hne]
      exact ih hnd.2 he'

theorem pinsOf_length_le_one (pb : List PinBus)
    (hnd : (pb.map (fun x => x.bus)).Nodup) (bus : String) :
    (pinsOf pb bus).length ≤ 1 := by
  induction pb with
  | nil => simp [pinsOf]
  | cons x pb ih =>
    simp only [List.map_cons, List.nodup_cons] at hnd
    rw [pinsOf_cons]
    by_cases hx : x.bus = bus
    · rw [if_pos hx]
      have hempty : pinsOf pb bus = [] := by
        unfold pinsOf
        rw [List.map_eq_nil_iff, List.filter_eq_nil_iff]
        intro a ha
        simp only [beq_iff_eq]
        intro hc
        exact hnd.1 (by rw [hx, ← hc]; exact List.mem_map_of_mem _ ha)
      rw [hempty]
      simp
    · rw [if_neg hx]
      exact ih hnd.2

/-- C3: a component with two or more placed pins resolving to one bus
always gets a `SHORT_CIRCUIT` naming that bus and the full (≥ 2 long) pin
list; a component whose placed pins all land on distinct buses never
does. -/
theorem checkBusConflicts_short_circuit (holes : List Hole) (c : Component) :
    (∀ bus, 2 ≤ (pinsOf (pinBuses holes c) bus).length →
      ∃ d ∈ checkBusConflicts holes c, d.type = "SHORT_CIRCUIT" ∧
        d.location = c.id ∧
        lookupStr d.meta "bus" = some (MVal.s bus) ∧
        lookupStr d.meta "pins" = some (MVal.list (pinsOf (pinBuses holes c) bus)) ∧
        2 ≤ (pinsOf (pinBuses holes c) bus).length) ∧
    (((pinBuses holes c).map (fun x => x.bus)).Nodup →
      checkBusConflicts holes c = []) := by
  constructor
  · intro bus hlen
    have hne : pinsOf (pinBuses holes c) bus ≠ [] := by
      intro hc
      rw [hc] at hlen
      simp at hlen
    have hlook : lookupStr ((pinBuses holes c).foldl insertGroup []) bus =
        some (pinsOf (pinBuses holes c) bus) := by
      rw [lookupStr_groupFold]
      simp only [lookupStr]
      rw [if_neg hne]
    have hmem : (bus, pinsOf (pinBuses holes c) bus) ∈
        (pinBuses holes c).foldl insertGroup [] :=
      lookupStr_mem _ _ _ hlook
    refine ⟨createError "SHORT_CIRCUIT" c.id
      ("Multiple pins (" ++ String.intercalate ", " (pinsOf (pinBuses holes c) bus) ++
        ") connected to same bus \"" ++ bus ++ "\" - this creates a short circuit")
      [("bus", MVal.s bus), ("pins", MVal.list (pinsOf (pinBuses holes c) bus)),
        ("holes", MVal.list (((pinBuses holes c).filter
          (fun x => x.bus == bus)).map (fun x => x.hole)))], ?_, ?_⟩
    · unfold checkBusConflicts
      simp only []
      refine List.mem_filterMap.mpr ⟨(bus, pinsOf (pinBuses holes c) bus), hmem, ?_⟩
      dsimp only
      rw [if_pos (by omega : (pinsOf (pinBuses holes c) bus).length > 1)]
    · refine ⟨rfl, rfl, ?_, ?_, hlen⟩
      · simp [createError, lookupStr]
      · simp [createError, lookupStr]
  · intro hnd
    unfold checkBusConflicts
    simp only []
    rw [List.filterMap_eq_nil_iff]
    intro e he
    have hlook : lookupStr ((pinBuses holes c).foldl insertGroup []) e.1 = some e.2 :=
      mem_lookup_of_nodup _ (groupFold_keys_nodup (pinBuses holes c) [] (by simp)) e he
    rw [lookupStr_groupFold] at hlook
    simp only [lookupStr] at hlook
    by_cases hpe : pinsOf (pinBuses holes c) e.1 = []
    · rw [if_pos hpe] at hlook
      exact absurd hlook (by simp)
    · rw [if_neg hpe] at hlook
      injection hlook with hlook
      have hle := pinsOf_length_le_one (pinBuses holes c) hnd e.1
      have hlens : (pinsOf (pinBuses holes c) e.1).length = e.2.length := by
        rw [hlook]
      rw [if_neg (by omega : ¬ e.2.length > 1)]

/-- A component whose two pins land on the same bus. -/
def cShortW : Component := ⟨"c1", "x", [("p", "2A"), ("q", "2B")]⟩

theorem checkBusConflicts_short_circuit_witness :
    2 ≤ (pinsOf (pinBuses holesW cShortW) "bus2").length ∧
    ∃ d ∈ checkBusConflicts holesW cShortW, d.type = "SHORT_CIRCUIT" ∧
      d.location = cShortW.id ∧
      lookupStr d.meta "bus" = some (MVal.s "bus2") ∧
      lookupStr d.meta "pins" = some (MVal.list (pinsOf (pinBuses holesW cShortW) "bus2")) ∧
      2 ≤ (pinsOf (pinBuses holesW cShortW) "bus2").length :=
  ⟨by decide, (checkBusConflicts_short_circuit holesW cShortW).1 "bus2" (by decide)⟩

/-! ## C7: power/ground shorts are detected per wire (`POWER_GROUND_SHORT`) -/

/-- Spec-side predicate: this single wire's two endpoints both resolve to
breadboard holes whose kinds disagree as `power` versus `ground`. -/
def specPowerGroundShort (holes : List Hole) (w : Wire) : Bool :=
  match (if w.wfrom.contains '.' then none else holeMapGet holes w.wfrom),
      (if w.wto.contains '.' then none else holeMapGet holes w.wto) with
  | some h1, some h2 =>
    (h1.type == "power" && h2.type == "ground") ||
    (h1.type == "ground" && h2.type == "power")
  | _, _ => false

/-- The (0-based) net indices of the wires satisfying
`specPowerGroundShort`, in wire order. -/
def specShortWireIds (holes : List Hole) : Nat → List Wire → List Nat
  | _, [] => []
  | n, w :: rest =>
    (if specPowerGroundShort holes w then [n] else []) ++
      specShortWireIds holes (n + 1) rest

theorem power_ground_excl (h : Hole) :
    (h.type == "power") = true → (h.type == "ground") = false := by
  intro hp
  rw [beq_iff_eq] at hp
  rw [hp]
  decide

/-- The boolean computed by `netCheck` over a one-wire net agrees with the
per-wire spec predicate. -/
theorem netBool_spec (holes : List Hole) (w : Wire) :
    ((((wireNodes w).filter (fun x => !(x.contains '.'))).filterMap
        (holeMapGet holes)).any (fun h => h.type == "power") &&
      (((wireNodes w).filter (fun x => !(x.contains '.'))).filterMap
        (holeMapGet holes)).any (fun h => h.type == "ground")) =
      specPowerGroundShort holes w := by
  unfold specPowerGroundShort wireNodes
  by_cases heq : w.wfrom = w.wto
  · rw [if_pos heq, ← heq]
    by_cases hdot : w.wfrom.contains '.'
    · simp [hdot]
    · simp only [hdot, if_neg (by simp [hdot] : ¬(w.wfrom.contains '.' = true))]
      cases hm : holeMapGet holes w.wfrom with
      | none => simp [List.filter, hdot, List.filterMap, hm]
      | some h =>
        simp only [List.filter, hdot, Bool.not_false, List.filterMap, hm]
        have e1 := power_ground_excl h
        cases hp : h.type == "power" <;> cases hg : h.type == "ground" <;> simp_all
  · rw [if_neg heq]
    by_cases hdf : w.wfrom.contains '.' <;> by_cases hdt : w.wto.contains '.'
    · simp [hdf, hdt]
    · simp only [hdf, if_pos (by simp [hdf] : w.wfrom.contains '.' = true)]
      cases hm : holeMapGet holes w.wto with
      | none => simp [List.filter, hdf, hdt, List.filterMap, hm]
      | some h =>
        simp only [List.filter, hdf, hdt, Bool.not_true, Bool.not_false,
          List.filterMap, hm]
        simp
        intro hp
        rw [hp]
        decide
    · simp only [hdt, if_pos (by simp [hdt] : w.wto.contains '.' = true)]
      cases hm : holeMapGet holes w.wfrom with
      | none => simp [List.filter, hdf, hdt, List.filterMap, hm]
      | some h =>
        simp only [List.filter, hdf, hdt, Bool.not_true, Bool.not_false,
          List.filterMap, hm]
        simp
        intro hp
        rw [hp]
        decide
    · simp only [if_neg (by simp [hdf] : ¬(w.wfrom.contains '.' = true)),
        if_neg (by simp [hdt] : ¬(w.wto.contains '.' = true))]
      cases hmf : holeMapGet holes w.wfrom with
      | none =>
        cases hmt : holeMapGet holes w.wto with
        | none => simp [List.filter, hdf, hdt, List.filterMap, hmf, hmt]
        | some h2 =>
          simp [List.filter, hdf, hdt, List.filterMap, hmf, hmt]
          intro hp
          rw [hp]
          decide
      | some h1 =>
        cases hmt : holeMapGet holes w.wto with
        | none =>
          simp [List.filter, hdf, hdt, List.filterMap, hmf, hmt]
          intro hp
          rw [hp]
          decide
        | some h2 =>
          simp only [List.filter, hdf, hdt, Bool.not_false, List.filterMap,
            hmf, hmt]
          have e1 := power_ground_excl h1
          have e2 := power_ground_excl h2
          cases hp1 : h1.type == "power" <;> cases hg1 : h1.type == "ground" <;>
            cases hp2 : h2.type == "power" <;> cases hg2 : h2.type == "ground" <;>
            simp_all

theorem netCheck_spec (holes : List Hole) (n : Nat) (w : Wire) :
    (netCheck holes (n, wireNodes w)).map (fun d => (d.type, d.location)) =
      (if specPowerGroundShort holes w then
        some ("POWER_GROUND_SHORT", "net-" ++ toString n)
      else none) := by
  unfold netCheck
  dsimp only
  rw [netBool_spec holes w]
  by_cases hsp : specPowerGroundShort holes w
  · rw [if_pos hsp, if_pos hsp]
    rfl
  · rw [if_neg hsp, if_neg hsp]
    rfl

/-- C7: one `POWER_GROUND_SHORT` is emitted per wire whose own two
endpoints resolve to a `power` hole and a `ground` hole, and for no other
wire — nets are single wire pairs, so no transitive connection is ever
consulted. -/
theorem checkPowerGroundShorts_direct_pairs (holes : List Hole) (circuit : Circuit) :
    (checkPowerGroundShorts holes circuit).map (fun d => (d.type, d.location)) =
      (specShortWireIds holes 0 circuit.wires).map
        (fun i => ("POWER_GROUND_SHORT", "net-" ++ toString i)) := by
  have main : ∀ (ws : List Wire) (n : Nat),
      (((buildNetsAux n ws).filterMap (netCheck holes)).map
        (fun d => (d.type, d.location))) =
      (specShortWireIds holes n ws).map
        (fun i => ("POWER_GROUND_SHORT", "net-" ++ toString i)) := by
    intro ws
    induction ws with
    | nil => intro n; rfl
    | cons w rest ih =>
      intro n
      simp only [buildNetsAux, specShortWireIds, List.filterMap_cons, List.map_append]
      have hs := netCheck_spec holes n w
      cases hnc : netCheck holes (n, wireNodes w) with
      | none =>
        rw [hnc] at hs
        by_cases hsp : specPowerGroundShort holes w
        · rw [if_pos hsp] at hs
          exact absurd hs (by simp)
        · have hfalse : specPowerGroundShort holes w = false := by
            cases hx : specPowerGroundShort holes w
            · rfl
            · exact absurd hx hsp
          rw [hfalse]
          simp only [Bool.false_eq_true, if_false, List.map_nil, List.nil_append]
          exact ih (n + 1)
      | some d =>
        rw [hnc] at hs
        by_cases hsp : specPowerGroundShort holes w
        · rw [if_pos hsp] at hs
          simp only [Option.map_some'] at hs
          injection hs with hs
          rw [if_pos hsp]
          simp only [List.map_cons, List.map_nil, List.singleton_append]
          rw [hs, ih (n + 1)]
        · rw [if_neg hsp] at hs
          exact absurd hs (by simp)
  exact main circuit.wires 0

/-! ## C9: the component cache makes `loadComponent` idempotent -/

/-- C9: once `loadComponent` has succeeded, calling it again for the same
type returns the identical cached definition and leaves the state
untouched — for *every* environment, i.e. without consulting the network
again. -/
theorem loadComponent_idempotent (env : Env) (st : VState) (t : String)
    (c : ComponentDef) (st' : VState)
    (h : loadComponent env st t = .ok (c, st')) (env2 : Env) :
    loadComponent env2 st' t = .ok (c, st') := by
  have hcache : lookupStr st'.loadedComponents t = some c := by
    unfold loadComponent at h
    cases hl : lookupStr st.loadedComponents t with
    | some c0 =>
      rw [hl] at h
      simp only [Except.ok.injEq, Prod.mk.injEq] at h
      rw [← h.2, hl, h.1]
    | none =>
      rw [hl] at h
      cases hlib : st.componentLibrary with
      | none =>
        rw [hlib] at h
        exact absurd h (by simp)
      | some lib =>
        rw [hlib] at h
        simp only [] at h
        cases hpath : lookupStr lib.index t with
        | none =>
          rw [hpath] at h
          exact absurd h (by simp)
        | some componentPath =>
          rw [hpath] at h
          simp only [] at h
          by_cases hempty : componentPath = ""
          · rw [if_pos hempty] at h
            exact absurd h (by simp)
          · rw [if_neg hempty] at h
            cases hfetch : env.componentFetch componentPath with
            | none =>
              rw [hfetch] at h
              exact absurd h (by simp)
            | some data =>
              rw [hfetch] at h
              simp only [Except.ok.injEq, Prod.mk.injEq] at h
              rw [← h.2, ← h.1]
              exact lookupStr_mapSet_self st.loadedComponents t data.component
  unfold loadComponent
  rw [hcache]

/-- A minimal component definition served by the witness environment. -/
def cdefW : ComponentDef := { pins := none, validation := none }

/-- An environment that serves the library and the `led` definition. -/
def envLoadW : Env :=
  { libraryFetch := some ⟨libW⟩,
    componentFetch := fun p => if p = "led.json" then some ⟨cdefW⟩ else none }

/-- An environment on which every fetch fails. -/
def envEmpty : Env := { libraryFetch := none, componentFetch := fun _ => none }

/-- The state after a first successful `loadComponent envLoadW stW "led"`. -/
def stLoadedW : VState :=
  { componentLibrary := some libW, loadedComponents := [("led", cdefW)] }

theorem loadComponent_idempotent_witness :
    loadComponent envEmpty stLoadedW "led" = .ok (cdefW, stLoadedW) :=
  loadComponent_idempotent envLoadW stW "led" cdefW stLoadedW rfl envEmpty

/-! ## C10: layer 4 only fires its LED checks on literal `led` type names -/

/-- C10: when no component carries the literal type `led` or
`led-red-5mm`, the topology layer emits no `OPEN_CIRCUIT`,
`NO_GROUND_PATH` or `NO_SOURCE_PATH` diagnostic (selection is by exact
string equality on the declared type, first match only). -/
theorem validateTopology_no_led (holes : List Hole) (circuit : Circuit)
    (h : ∀ c ∈ circuit.components, c.type ≠ "led" ∧ c.type ≠ "led-red-5mm") :
    ∀ d ∈ validateTopology holes circuit,
      d.type ≠ "OPEN_CIRCUIT" ∧ d.type ≠ "NO_GROUND_PATH" ∧
        d.type ≠ "NO_SOURCE_PATH" := by
  have hfind : circuit.components.find?
      (fun c => c.type == "led" || c.type == "led-red-5mm") = none := by
    rw [List.find?_eq_none]
    intro c hc
    obtain ⟨h1, h2⟩ := h c hc
    simp [h1, h2]
  unfold validateTopology
  by_cases h0 : circuit.components.length = 0
  · rw [if_pos h0]
    intro d hd
    rcases List.mem_cons.mp hd with hd | hd
    · subst hd
      refine ⟨by decide, by decide, by decide⟩
    · exact absurd hd (List.not_mem_nil _)
  · rw [if_neg h0]
    by_cases h1 : circuit.wires.length = 0 ∧ circuit.components.length > 0
    · rw [if_pos h1]
      intro d hd
      rcases List.mem_cons.mp hd with hd | hd
      · subst hd
        refine ⟨by decide, by decide, by decide⟩
      · exact absurd hd (List.not_mem_nil _)
    · rw [if_neg h1]
      intro d hd
      simp only [List.mem_append] at hd
      rcases hd with (hd | hd) | hd
      · have hser : checkSeriesConnections holes circuit
            (buildBusConnectivityGraph holes circuit) = [] := by
          unfold checkSeriesConnections
          rw [hfind]
        rw [hser] at hd
        exact absurd hd (List.not_mem_nil _)
      · have hcp : checkCompletePaths holes circuit
            (buildBusConnectivityGraph holes circuit) = [] := by
          unfold checkCompletePaths
          rw [hfind]
        rw [hcp] at hd
        exact absurd hd (List.not_mem_nil _)
      · unfold checkIsolatedComponents at hd
        by_cases hg : (findConnectedGroups
            (buildBusConnectivityGraph holes circuit)).length > 1
        · rw [if_pos hg] at hd
          rcases List.mem_cons.mp hd with hd | hd
          · have ht : d.type = "DISCONNECTED_GROUPS" := by
              rw [hd]
              rfl
            refine ⟨?_, ?_, ?_⟩ <;> rw [ht] <;> decide
          · exact absurd hd (List.not_mem_nil _)
        · rw [if_neg hg] at hd
          exact absurd hd (List.not_mem_nil _)

/-- A circuit whose only component is typed `button` (not an LED). -/
def circuitNoLedW : Circuit :=
  ⟨[⟨"b1", "button", [("p", "1A")]⟩], [⟨"w1", "1A", "2A", Json.null⟩]⟩

theorem validateTopology_no_led_witness :
    (∀ c ∈ circuitNoLedW.components, c.type ≠ "led" ∧ c.type ≠ "led-red-5mm") ∧
    ∀ d ∈ validateTopology holesW circuitNoLedW,
      d.type ≠ "OPEN_CIRCUIT" ∧ d.type ≠ "NO_GROUND_PATH" ∧
        d.type ≠ "NO_SOURCE_PATH" :=
  ⟨by decide, validateTopology_no_led holesW circuitNoLedW (by decide)⟩

/-! ## C8: library-load failure handling -/

/-- The uninitialized validator state. -/
def stEmptyW : VState := { componentLibrary := none, loadedComponents := [] }

/-- C8 counterexample: the claim says a failed library fetch is "surfaced
as a thrown failure from `init()`". In fact only the `try` block of
`init` throws (`initTry` errors); `init` itself catches it and returns a
plain `false` — the caller observes a normal return, never a thrown
failure. -/
theorem init_fetch_failure_returns_false :
    initTry envEmpty stEmptyW = Except.error "Failed to load component library" ∧
    init envEmpty stEmptyW = (false, stEmptyW) :=
  ⟨rfl, rfl⟩

/-- C8 amended: on a failed library fetch `init` returns `false` (it does
not throw), and a `validate` call in the uninitialized state returns
`valid = false` with exactly one `LIBRARY_LOAD_FAILED` diagnostic and
nothing else; the modelled pipeline is total, so initialized `validate`
always returns a `ValidationResult`. -/
theorem validate_library_load_failed (holes : List Hole) (env : Env) (st : VState)
    (j : Json) (hlib : st.componentLibrary = none) (henv : env.libraryFetch = none) :
    init env st = (false, st) ∧
    validate holes env st j =
      ({ valid := false,
          errors := [createError "LIBRARY_LOAD_FAILED" "validator"
            "Failed to load component library"],
          warnings := [] }, st) := by
  have hinit : init env st = (false, st) := by
    unfold init initTry
    rw [henv]
  refine ⟨hinit, ?_⟩
  unfold validate
  rw [hlib]
  simp only [hinit]
  simp

theorem validate_library_load_failed_witness :
    validate holesW envEmpty stEmptyW jMissingComponents =
      ({ valid := false,
          errors := [createError "LIBRARY_LOAD_FAILED" "validator"
            "Failed to load component library"],
          warnings := [] }, stEmptyW) :=
  (validate_library_load_failed holesW envEmpty stEmptyW jMissingComponents rfl rfl).2

end CircuitValidator
